import Mathlib

set_option maxRecDepth 100000

/-!
Verification of the reconciliation core of the llm-d inference-scheduler
operator.  The Go sources under internal/controller are shallowly embedded:
pure helpers become Lean functions, the reconcile loop becomes a pure
function from an abstract environment (the answers the Kubernetes API
server would give to each store call) to an outcome consisting of the
returned result, the final in-memory object, and a trace of the side
effects that were issued (upserts, finalizer edits, status writes).

Conventions of the embedding:
- Go `int32` fields are modelled as `Int` (no arithmetic in the claims
  comes near the 32-bit boundary).
- Go `float64` fields are modelled as `ℚ`; the only float operations in
  the sources are defaulting and `%.2f`/`%.1f` formatting of values with
  at most two decimal digits, on which the rational model agrees with
  IEEE doubles.
- Go maps are modelled as association lists with last-write-wins insert.
- Errors from the client are the inductive `GoErr`; `errors.IsNotFound`
  is `(· = .notFound)` and `meta.IsNoMatchError` is `(· = .noMatch)`.
- `metav1.Now()` is an `Int` parameter `now` threaded into the functions
  that read the clock.
-/

/-! ### Small Go helpers (inferencescheduler_controller.go) -/

/-- The `getDefaultInt32` from the controller: value if the pointer is non-nil,
otherwise the default. -/
def getDefaultInt32 (value : Option Int) (defaultValue : Int) : Int :=
  match value with
  | some v => v
  | none => defaultValue

/-- The `getDefaultString` from the controller: value if non-empty, otherwise
the default. -/
def getDefaultString (value defaultValue : String) : String :=
  if value ≠ "" then value else defaultValue

/-- The `getDefaultFloat64` from the controller: value if the pointer is
non-nil, otherwise the default. -/
def getDefaultFloat64 (value : Option ℚ) (defaultValue : ℚ) : ℚ :=
  match value with
  | some v => v
  | none => defaultValue

/-! ### sanitizeName (inferencescheduler_controller.go lines 460-474) -/

/-- The character class `[a-z0-9-]` of the regexp in `sanitizeName`. -/
def isLowerAlnumDash (c : Char) : Bool :=
  (('a' ≤ c && c ≤ 'z') || ('0' ≤ c && c ≤ '9')) || c == '-'

/-- One step of `reg.ReplaceAllString(_, "-")` for the regexp
`[^a-z0-9\-]`: every rune outside the class is replaced by a hyphen. -/
def replaceInvalidChar (c : Char) : Char :=
  if isLowerAlnumDash c then c else '-'

/-- The `strings.Trim(s, "-")`: remove leading and trailing hyphens. -/
def goTrimDash (l : List Char) : List Char :=
  ((l.dropWhile (· == '-')).reverse.dropWhile (· == '-')).reverse

/-- The `sanitizeName` from the controller: lower-case, replace runes outside
`[a-z0-9-]` with `-`, trim hyphens at both ends, then truncate to 63.
(After the replacement step every rune is ASCII, so Go's byte-level
`len`/slicing agrees with the character-level model.  Lean's
`Char.toLower` folds only ASCII where Go folds all of Unicode; the two
differ only on non-ASCII runes, which the replacement step sends to `-`
either way except for the handful of Unicode points that case-fold into
ASCII, immaterial to the properties proved here.) -/
def sanitizeName (s : String) : String :=
  let lowered := s.toList.map Char.toLower
  let replaced := lowered.map replaceInvalidChar
  let trimmed := goTrimDash replaced
  String.mk (trimmed.take 63)

/-! ### Lemmas about sanitizeName -/

theorem isLowerAlnumDash_replaceInvalidChar (c : Char) :
    isLowerAlnumDash (replaceInvalidChar c) = true := by
  cases hc : isLowerAlnumDash c with
  | true => simp [replaceInvalidChar, hc]
  | false =>
    simp only [replaceInvalidChar, hc, Bool.false_eq_true, if_false]
    decide

theorem goTrimDash_sublist (l : List Char) : (goTrimDash l).Sublist l := by
  unfold goTrimDash
  have h1 : ((l.dropWhile (· == '-')).reverse.dropWhile (· == '-')).Sublist
      (l.dropWhile (· == '-')).reverse := List.dropWhile_sublist _
  have h2 : (((l.dropWhile (· == '-')).reverse.dropWhile (· == '-')).reverse).Sublist
      (l.dropWhile (· == '-')).reverse.reverse := h1.reverse
  rw [List.reverse_reverse] at h2
  exact h2.trans (List.dropWhile_sublist _)

theorem goTrimDash_isPrefixOf (l : List Char) :
    (goTrimDash l) <+: (l.dropWhile (· == '-')) := by
  unfold goTrimDash
  apply List.reverse_suffix.mp
  rw [List.reverse_reverse]
  exact List.dropWhile_suffix _

theorem head?_dropWhile_false {p : Char → Bool} {l : List Char} {a : Char}
    (h : (l.dropWhile p).head? = some a) : p a = false := by
  induction l with
  | nil => simp [List.dropWhile] at h
  | cons c rest ih =>
    by_cases hc : p c = true
    · rw [List.dropWhile_cons_of_pos hc] at h
      exact ih h
    · rw [List.dropWhile_cons_of_neg hc] at h
      simp only [List.head?_cons, Option.some.injEq] at h
      subst h
      simpa using hc

theorem dropWhile_eq_self_of_head {p : Char → Bool} {l : List Char}
    (h : ∀ a, l.head? = some a → p a = false) : l.dropWhile p = l := by
  cases l with
  | nil => rfl
  | cons c rest =>
    have hc : p c = false := h c rfl
    exact List.dropWhile_cons_of_neg (by simp [hc])

theorem head?_take63 (l : List Char) : (l.take 63).head? = l.head? := by
  cases l <;> rfl

theorem head?_eq_of_isPrefixOf {l₁ l₂ : List Char} (h : l₁ <+: l₂) (hne : l₁ ≠ []) :
    l₂.head? = l₁.head? := by
  obtain ⟨t, rfl⟩ := h
  cases l₁ with
  | nil => exact absurd rfl hne
  | cons a t' => rfl

theorem toLower_eq_self_of_valid {c : Char} (h : isLowerAlnumDash c = true) :
    c.toLower = c := by
  have hnot : ¬(65 ≤ c.toNat ∧ c.toNat ≤ 90) := by
    unfold isLowerAlnumDash at h
    simp only [Bool.or_eq_true, Bool.and_eq_true, decide_eq_true_eq, beq_iff_eq] at h
    rcases h with (⟨h1, _⟩ | ⟨_, h2⟩) | h1
    · rw [Char.le_def, UInt32.le_def] at h1
      have h1' : 97 ≤ c.toNat := h1
      omega
    · rw [Char.le_def, UInt32.le_def] at h2
      have h2' : c.toNat ≤ 57 := h2
      omega
    · subst h1
      decide
  unfold Char.toLower
  rw [if_neg hnot]

theorem replaceInvalidChar_eq_self_of_valid {c : Char} (h : isLowerAlnumDash c = true) :
    replaceInvalidChar c = c := by
  simp [replaceInvalidChar, h]

theorem map_id_of_mem {f : Char → Char} {l : List Char} (h : ∀ c ∈ l, f c = c) :
    l.map f = l := by
  induction l with
  | nil => rfl
  | cons a t ih =>
    simp only [List.map_cons, h a (List.mem_cons_self a t)]
    rw [ih (fun c hc => h c (List.mem_cons_of_mem a hc))]

theorem mem_sanitizeName_valid (s : String) :
    ∀ c ∈ (sanitizeName s).toList, isLowerAlnumDash c = true := by
  intro c hc
  have h1 : c ∈ goTrimDash ((s.toList.map Char.toLower).map replaceInvalidChar) :=
    List.mem_of_mem_take hc
  have h2 : c ∈ (s.toList.map Char.toLower).map replaceInvalidChar :=
    (goTrimDash_sublist _).mem h1
  obtain ⟨a, _, rfl⟩ := List.mem_map.mp h2
  exact isLowerAlnumDash_replaceInvalidChar a

theorem sanitizeName_head (s : String) :
    (sanitizeName s).toList.head? ≠ some '-' := by
  show ((goTrimDash ((s.toList.map Char.toLower).map replaceInvalidChar)).take 63).head? ≠
    some '-'
  rw [head?_take63]
  set t := goTrimDash ((s.toList.map Char.toLower).map replaceInvalidChar) with ht
  intro hcon
  have hne : t ≠ [] := by
    intro h0
    rw [h0] at hcon
    exact Option.noConfusion hcon
  have hpre := goTrimDash_isPrefixOf ((s.toList.map Char.toLower).map replaceInvalidChar)
  rw [← ht] at hpre
  have heads := head?_eq_of_isPrefixOf hpre hne
  rw [hcon] at heads
  have := head?_dropWhile_false heads
  simp at this

/-- C10 (amended): `sanitizeName` always returns a string of length at most
63 whose characters are lowercase letters, digits and hyphens, with no
leading hyphen; a trailing hyphen can survive only through the final
63-character truncation, and whenever the output has no trailing hyphen,
applying `sanitizeName` to it returns it unchanged. -/
theorem sanitizeName_spec (s : String) :
    (sanitizeName s).length ≤ 63 ∧
    (∀ c ∈ (sanitizeName s).toList, isLowerAlnumDash c = true) ∧
    (sanitizeName s).toList.head? ≠ some '-' ∧
    ((sanitizeName s).toList.getLast? ≠ some '-' →
      sanitizeName (sanitizeName s) = sanitizeName s) := by
  refine ⟨?_, mem_sanitizeName_valid s, sanitizeName_head s, ?_⟩
  · show ((goTrimDash ((s.toList.map Char.toLower).map replaceInvalidChar)).take 63).length ≤ 63
    rw [List.length_take]
    exact min_le_left _ _
  · intro hlast
    set o := (sanitizeName s).toList with ho
    have hvalid : ∀ c ∈ o, isLowerAlnumDash c = true := mem_sanitizeName_valid s
    have hlower : o.map Char.toLower = o :=
      map_id_of_mem (fun c hc => toLower_eq_self_of_valid (hvalid c hc))
    have hreplace : o.map replaceInvalidChar = o :=
      map_id_of_mem (fun c hc => replaceInvalidChar_eq_self_of_valid (hvalid c hc))
    have hdropL : o.dropWhile (· == '-') = o := by
      apply dropWhile_eq_self_of_head
      intro a ha
      have hhead := sanitizeName_head s
      rw [← ho] at hhead
      rw [ha] at hhead
      simp only [ne_eq, Option.some.injEq] at hhead
      simpa using hhead
    have hdropR : o.reverse.dropWhile (· == '-') = o.reverse := by
      apply dropWhile_eq_self_of_head
      intro a ha
      rw [List.head?_reverse] at ha
      rw [ha] at hlast
      simp only [ne_eq, Option.some.injEq] at hlast
      simpa using hlast
    have htrim : goTrimDash o = o := by
      unfold goTrimDash
      rw [hdropL, hdropR, List.reverse_reverse]
    have hlen : o.length ≤ 63 := by
      show ((goTrimDash ((s.toList.map Char.toLower).map replaceInvalidChar)).take 63).length ≤
        63
      rw [List.length_take]
      exact min_le_left _ _
    have htake : o.take 63 = o := List.take_of_length_le hlen
    have key : sanitizeName (sanitizeName s) =
        String.mk ((goTrimDash ((o.map Char.toLower).map replaceInvalidChar)).take 63) := rfl
    rw [key, hlower, hreplace, htrim, htake, ho]
    rfl

/-- Witness for the amended C10 theorem at the concrete input `"He llo!"`,
whose sanitized form `"he-llo"` has no trailing hyphen. -/
theorem sanitizeName_spec_witness :
    sanitizeName "He llo!" = "he-llo" ∧
    sanitizeName (sanitizeName "He llo!") = sanitizeName "He llo!" :=
  ⟨by decide, (sanitizeName_spec "He llo!").2.2.2 (by decide)⟩

def c10Input : String := String.mk (List.replicate 62 'a' ++ ['-', 'b'])

/-- C10 counterexample: on an input whose trimmed form is 64 characters
long with a hyphen in position 63, the truncation leaves a trailing
hyphen, so the output violates the no-trailing-hyphen claim and
`sanitizeName` is not idempotent on it. -/
theorem sanitizeName_not_idempotent :
    (sanitizeName c10Input).toList.getLast? = some '-' ∧
    sanitizeName (sanitizeName c10Input) ≠ sanitizeName c10Input := by
  constructor
  · decide
  · decide

/-! ### Errors and condition model -/

/-- Kubernetes client errors, as far as the controller distinguishes them:
`errors.IsNotFound`, `meta.IsNoMatchError`, and everything else. -/
inductive GoErr
  | notFound
  | noMatch
  | other (msg : String)
deriving DecidableEq

/-- The message text of an error (`err.Error()` in Go), abstracted. -/
def goErrMsg : GoErr → String
  | .notFound => "not found"
  | .noMatch => "no matches for kind"
  | .other m => m

/-- The `metav1.ConditionStatus`: True / False / Unknown. -/
inductive CStatus
  | ctrue
  | cfalse
  | cunknown
deriving DecidableEq

/-- The `metav1.Condition` as used by the controller. -/
structure Condition where
  typ : String
  status : CStatus
  observedGeneration : Int
  lastTransitionTime : Int
  reason : String
  message : String
deriving DecidableEq

/-- The `meta.FindStatusCondition`: the first condition with the given type. -/
def findCondition (conds : List Condition) (t : String) : Option Condition :=
  conds.find? (fun c => c.typ == t)

/-- The in-place update `meta.SetStatusCondition` performs on a found
condition: status and last-transition-time change only when the status
differs; reason, message and observed generation are always taken from
the new condition. -/
def mergeCond (old n : Condition) : Condition :=
  if old.status ≠ n.status then
    { old with
        status := n.status
        lastTransitionTime := n.lastTransitionTime
        reason := n.reason
        message := n.message
        observedGeneration := n.observedGeneration }
  else
    { old with
        reason := n.reason
        message := n.message
        observedGeneration := n.observedGeneration }

/-- The `meta.SetStatusCondition` (apimachinery): upsert keyed on the
condition type, updating the first condition of that type in place or
appending if none exists.  The caller in this controller always supplies
`LastTransitionTime = metav1.Now()`, which is never the zero time, so the
`IsZero` fallback branches of the library function are dead and the
provided timestamp is used as is. -/
def setStatusCondition : List Condition → Condition → List Condition
  | [], n => [n]
  | c :: rest, n =>
    if c.typ == n.typ then mergeCond c n :: rest
    else c :: setStatusCondition rest n

/-! ### The InferenceScheduler object (api/v1alpha1/inferencescheduler_types.go) -/

/-- The `ScorerPlugin`: enabled flag, optional weight, string parameters. -/
structure ScorerPlugin where
  enabled : Bool
  weight : Option ℚ
  parameters : List (String × String)
deriving DecidableEq

/-- The `PluginConfig`: the three optional scorer plugins.  The field
`prefCacheScorer` is `PrefixCacheScorer` in the Go source. -/
structure PluginConfig where
  loadAwareScorer : Option ScorerPlugin
  prefCacheScorer : Option ScorerPlugin
  kvCacheUtilizationScorer : Option ScorerPlugin
deriving DecidableEq

/-- The `ModelServerSpec`.  `typ` is `Type` in Go; resources are omitted as an
opaque passthrough the controller never inspects. -/
structure ModelServerSpec where
  typ : String
  modelName : String
  replicas : Int
  image : String
  enablePrefCaching : Bool
  gpuMemoryUtilization : Option ℚ
  hfTokenSecretName : String
  port : Int
  labels : List (String × String)
deriving DecidableEq

/-- The `EndpointPickerSpec`. -/
structure EndpointPickerSpec where
  image : String
  replicas : Int
  grpcPort : Int
  plugins : PluginConfig
deriving DecidableEq

/-- The `GatewaySpec`. -/
structure GatewayCfg where
  className : String
  listenerPort : Int
  serviceType : String
  gwName : String
deriving DecidableEq

/-- The `InferenceSchedulerSpec`. -/
structure ISSpec where
  modelServer : ModelServerSpec
  endpointPicker : EndpointPickerSpec
  gateway : GatewayCfg
deriving DecidableEq

/-- The `InferenceSchedulerStatus`. -/
structure ISStatus where
  conditions : List Condition
  phase : String
  modelServerReplicas : Int
  eppReplicas : Int
  gatewayReady : Bool
  inferencePoolReady : Bool
  prerequisitesValidated : Bool
  prerequisiteMessage : String
deriving DecidableEq

/-- The root `InferenceScheduler` object: metadata the controller reads
(name, namespace, generation, deletion timestamp presence, finalizer
list) plus spec and status. -/
structure ISObj where
  name : String
  nspace : String
  generation : Int
  deletionTimestampSet : Bool
  finalizers : List String
  spec : ISSpec
  status : ISStatus
deriving DecidableEq

/-- The finalizer string constant `llm.llm-d.io/finalizer`. -/
def finalizerName : String := "llm.llm-d.io/finalizer"

/-- The `updateCondition` from the controller: builds a `metav1.Condition`
with the object's generation and `metav1.Now()` (the `now` parameter) and
applies `meta.SetStatusCondition` to the status conditions. -/
def updateCondition (obj : ISObj) (t : String) (s : CStatus)
    (reason message : String) (now : Int) : ISObj :=
  let c : Condition :=
    { typ := t, status := s, observedGeneration := obj.generation,
      lastTransitionTime := now, reason := reason, message := message }
  { obj with status := { obj.status with conditions := setStatusCondition obj.status.conditions c } }

/-! ### Lemmas about the condition upsert -/

theorem mergeCond_typ (old n : Condition) : (mergeCond old n).typ = old.typ := by
  unfold mergeCond
  split <;> rfl

theorem findCondition_setStatusCondition (conds : List Condition) (n : Condition) :
    findCondition (setStatusCondition conds n) n.typ =
      some (match findCondition conds n.typ with
            | none => n
            | some old => mergeCond old n) := by
  induction conds with
  | nil =>
    simp [setStatusCondition, findCondition]
  | cons c rest ih =>
    by_cases hc : (c.typ == n.typ) = true
    · simp only [setStatusCondition, hc, if_true, findCondition, List.find?_cons]
      simp [mergeCond_typ, hc]
    · have hcf : (c.typ == n.typ) = false := by simpa using hc
      simp only [setStatusCondition, hcf, Bool.false_eq_true, if_false, findCondition,
        List.find?_cons]
      simpa [findCondition] using ih

theorem setStatusCondition_types_of_found (conds : List Condition) (n : Condition)
    (h : (findCondition conds n.typ).isSome = true) :
    (setStatusCondition conds n).map (·.typ) = conds.map (·.typ) := by
  induction conds with
  | nil => simp [findCondition] at h
  | cons c rest ih =>
    by_cases hc : (c.typ == n.typ) = true
    · simp [setStatusCondition, hc, mergeCond_typ]
    · have hcf : (c.typ == n.typ) = false := by simpa using hc
      unfold findCondition at h
      rw [List.find?_cons] at h
      simp only [hcf] at h
      simp only [setStatusCondition, hcf, Bool.false_eq_true, if_false, List.map_cons]
      rw [ih h]

theorem setStatusCondition_of_none (conds : List Condition) (n : Condition)
    (h : findCondition conds n.typ = none) :
    setStatusCondition conds n = conds ++ [n] := by
  induction conds with
  | nil => rfl
  | cons c rest ih =>
    unfold findCondition at h
    rw [List.find?_cons] at h
    by_cases hc : (c.typ == n.typ) = true
    · simp only [hc] at h
      exact Option.noConfusion h
    · have hcf : (c.typ == n.typ) = false := by simpa using hc
      simp only [hcf] at h
      simp only [setStatusCondition, hcf, Bool.false_eq_true, if_false, List.cons_append]
      rw [ih h]

theorem setStatusCondition_nodup (conds : List Condition) (n : Condition)
    (h : (conds.map (·.typ)).Nodup) :
    ((setStatusCondition conds n).map (·.typ)).Nodup := by
  cases hf : findCondition conds n.typ with
  | some c =>
    rw [setStatusCondition_types_of_found conds n (by rw [hf]; rfl)]
    exact h
  | none =>
    rw [setStatusCondition_of_none conds n hf, List.map_append]
    simp only [List.map_cons, List.map_nil]
    have hnotin : n.typ ∉ conds.map (·.typ) := by
      intro hmem
      obtain ⟨c, hcmem, hceq⟩ := List.mem_map.mp hmem
      have hne := List.find?_eq_none.mp hf c hcmem
      apply hne
      rw [hceq]
      simp
    exact List.Nodup.append h (List.nodup_singleton _) (by
      intro a ha hb
      simp only [List.mem_singleton] at hb
      subst hb
      exact hnotin ha)

theorem findCondition_typ_eq {conds : List Condition} {t : String} {c : Condition}
    (h : findCondition conds t = some c) : c.typ = t := by
  induction conds with
  | nil => simp [findCondition] at h
  | cons a rest ih =>
    unfold findCondition at h
    rw [List.find?_cons] at h
    by_cases ha : (a.typ == t) = true
    · simp only [ha] at h
      cases h
      exact eq_of_beq ha
    · have haf : (a.typ == t) = false := by simpa using ha
      simp only [haf] at h
      exact ih h

theorem mergeCond_same_status (old n : Condition) (h : old.status = n.status) :
    mergeCond old n =
      { old with
          reason := n.reason
          message := n.message
          observedGeneration := n.observedGeneration } := by
  unfold mergeCond
  rw [if_neg]
  simp [h]

theorem mergeCond_diff_status (old n : Condition) (h : old.status ≠ n.status) :
    mergeCond old n =
      { old with
          status := n.status
          lastTransitionTime := n.lastTransitionTime
          reason := n.reason
          message := n.message
          observedGeneration := n.observedGeneration } := by
  unfold mergeCond
  rw [if_pos h]

theorem findCondition_set_none (conds : List Condition) (n : Condition)
    (h : findCondition conds n.typ = none) :
    findCondition (setStatusCondition conds n) n.typ = some n := by
  rw [findCondition_setStatusCondition, h]

theorem findCondition_set_some (conds : List Condition) (n old : Condition)
    (h : findCondition conds n.typ = some old) :
    findCondition (setStatusCondition conds n) n.typ = some (mergeCond old n) := by
  rw [findCondition_setStatusCondition, h]

/-- C7: `updateCondition` is an upsert keyed by the condition type: it
never introduces a duplicate type, and re-setting the same type with an
unchanged status leaves the stored last-transition-time intact while
replacing reason and message; the timestamp takes the current time only
when the type is new or its status value changes. -/
theorem updateCondition_semantics (obj : ISObj) (t : String) (s : CStatus)
    (r1 m1 r2 m2 : String) (now1 now2 : Int)
    (hnodup : (obj.status.conditions.map (·.typ)).Nodup) :
    ((updateCondition obj t s r1 m1 now1).status.conditions.map (·.typ)).Nodup ∧
    ∃ ltt : Int,
      findCondition (updateCondition obj t s r1 m1 now1).status.conditions t =
        some ⟨t, s, obj.generation, ltt, r1, m1⟩ ∧
      findCondition
          (updateCondition (updateCondition obj t s r1 m1 now1) t s r2 m2 now2).status.conditions
          t =
        some ⟨t, s, obj.generation, ltt, r2, m2⟩ ∧
      (findCondition obj.status.conditions t = none → ltt = now1) ∧
      (∀ c, findCondition obj.status.conditions t = some c →
        (c.status = s → ltt = c.lastTransitionTime) ∧ (c.status ≠ s → ltt = now1)) := by
  constructor
  · exact setStatusCondition_nodup _ _ hnodup
  · cases hf : findCondition obj.status.conditions t with
    | none =>
      refine ⟨now1, ?_, ?_, fun _ => rfl, ?_⟩
      · exact findCondition_set_none obj.status.conditions
          ⟨t, s, obj.generation, now1, r1, m1⟩ hf
      · have h1 := findCondition_set_none obj.status.conditions
          ⟨t, s, obj.generation, now1, r1, m1⟩ hf
        have h2 := findCondition_set_some
          (setStatusCondition obj.status.conditions ⟨t, s, obj.generation, now1, r1, m1⟩)
          ⟨t, s, obj.generation, now2, r2, m2⟩
          ⟨t, s, obj.generation, now1, r1, m1⟩ h1
        have hm : mergeCond (⟨t, s, obj.generation, now1, r1, m1⟩ : Condition)
            ⟨t, s, obj.generation, now2, r2, m2⟩ = ⟨t, s, obj.generation, now1, r2, m2⟩ := by
          simp [mergeCond]
        rw [hm] at h2
        exact h2
      · intro c hc
        exact Option.noConfusion hc
    | some c =>
      have hct : c.typ = t := findCondition_typ_eq hf
      obtain ⟨ct, cs, cg, cl, cr, cm⟩ := c
      simp only at hct
      have hct2 : t = ct := hct.symm
      subst hct2
      by_cases hcs : cs = s
      · subst hcs
        refine ⟨cl, ?_, ?_, ?_, ?_⟩
        · have h1 := findCondition_set_some obj.status.conditions
            ⟨t, cs, obj.generation, now1, r1, m1⟩ ⟨t, cs, cg, cl, cr, cm⟩ hf
          have hm : mergeCond (⟨t, cs, cg, cl, cr, cm⟩ : Condition)
              ⟨t, cs, obj.generation, now1, r1, m1⟩ =
              ⟨t, cs, obj.generation, cl, r1, m1⟩ := by
            simp [mergeCond]
          rw [hm] at h1
          exact h1
        · have h1 := findCondition_set_some obj.status.conditions
            ⟨t, cs, obj.generation, now1, r1, m1⟩ ⟨t, cs, cg, cl, cr, cm⟩ hf
          have hm : mergeCond (⟨t, cs, cg, cl, cr, cm⟩ : Condition)
              ⟨t, cs, obj.generation, now1, r1, m1⟩ =
              ⟨t, cs, obj.generation, cl, r1, m1⟩ := by
            simp [mergeCond]
          rw [hm] at h1
          have h2 := findCondition_set_some
            (setStatusCondition obj.status.conditions ⟨t, cs, obj.generation, now1, r1, m1⟩)
            ⟨t, cs, obj.generation, now2, r2, m2⟩
            ⟨t, cs, obj.generation, cl, r1, m1⟩ h1
          have hm2 : mergeCond (⟨t, cs, obj.generation, cl, r1, m1⟩ : Condition)
              ⟨t, cs, obj.generation, now2, r2, m2⟩ =
              ⟨t, cs, obj.generation, cl, r2, m2⟩ := by
            simp [mergeCond]
          rw [hm2] at h2
          exact h2
        · intro hcon
          exact Option.noConfusion hcon
        · intro c' hc'
          cases hc'
          exact ⟨fun _ => rfl, fun hne => absurd rfl hne⟩
      · refine ⟨now1, ?_, ?_, ?_, ?_⟩
        · have h1 := findCondition_set_some obj.status.conditions
            ⟨t, s, obj.generation, now1, r1, m1⟩ ⟨t, cs, cg, cl, cr, cm⟩ hf
          have hm : mergeCond (⟨t, cs, cg, cl, cr, cm⟩ : Condition)
              ⟨t, s, obj.generation, now1, r1, m1⟩ =
              ⟨t, s, obj.generation, now1, r1, m1⟩ := by
            simp [mergeCond, hcs]
          rw [hm] at h1
          exact h1
        · have h1 := findCondition_set_some obj.status.conditions
            ⟨t, s, obj.generation, now1, r1, m1⟩ ⟨t, cs, cg, cl, cr, cm⟩ hf
          have hm : mergeCond (⟨t, cs, cg, cl, cr, cm⟩ : Condition)
              ⟨t, s, obj.generation, now1, r1, m1⟩ =
              ⟨t, s, obj.generation, now1, r1, m1⟩ := by
            simp [mergeCond, hcs]
          rw [hm] at h1
          have h2 := findCondition_set_some
            (setStatusCondition obj.status.conditions ⟨t, s, obj.generation, now1, r1, m1⟩)
            ⟨t, s, obj.generation, now2, r2, m2⟩
            ⟨t, s, obj.generation, now1, r1, m1⟩ h1
          have hm2 : mergeCond (⟨t, s, obj.generation, now1, r1, m1⟩ : Condition)
              ⟨t, s, obj.generation, now2, r2, m2⟩ =
              ⟨t, s, obj.generation, now1, r2, m2⟩ := by
            simp [mergeCond]
          rw [hm2] at h2
          exact h2
        · intro hcon
          exact Option.noConfusion hcon
        · intro c' hc'
          cases hc'
          exact ⟨fun heq => absurd heq hcs, fun _ => rfl⟩

/-- A minimal sample spec shared by the concrete witnesses. -/
def sampleSpec : ISSpec :=
  { modelServer :=
      { typ := "vllm"
        modelName := "Qwen/Qwen2"
        replicas := 1
        image := ""
        enablePrefCaching := false
        gpuMemoryUtilization := none
        hfTokenSecretName := "hf-secret"
        port := 0
        labels := [] }
    endpointPicker :=
      { image := ""
        replicas := 1
        grpcPort := 0
        plugins := ⟨none, none, none⟩ }
    gateway :=
      { className := ""
        listenerPort := 0
        serviceType := ""
        gwName := "" } }

/-- An empty sample status. -/
def sampleStatus : ISStatus :=
  { conditions := []
    phase := ""
    modelServerReplicas := 0
    eppReplicas := 0
    gatewayReady := false
    inferencePoolReady := false
    prerequisitesValidated := false
    prerequisiteMessage := "" }

/-- A sample root object with the finalizer attached. -/
def sampleObj : ISObj :=
  { name := "demo"
    nspace := "ns"
    generation := 3
    deletionTimestampSet := false
    finalizers := [finalizerName]
    spec := sampleSpec
    status := sampleStatus }

/-- Witness for C7 at a concrete object: setting `Ready` twice with the
same status keeps the first call's timestamp while taking the second
call's reason and message. -/
theorem updateCondition_semantics_witness :
    findCondition
        (updateCondition (updateCondition sampleObj "Ready" .ctrue "R1" "M1" 5)
          "Ready" .ctrue "R2" "M2" 9).status.conditions "Ready" =
      some ⟨"Ready", .ctrue, 3, 5, "R2", "M2"⟩ := by
  obtain ⟨-, ltt, h1, h2, h3, -⟩ := updateCondition_semantics sampleObj "Ready" .ctrue
    "R1" "M1" "R2" "M2" 5 9 (by decide)
  have hl : ltt = 5 := h3 rfl
  subst hl
  exact h2

/-! ### Formatting and map helpers for the builders (resources.go) -/

/-- Two-digit zero-padded rendering of an integer in `[0, 99]`. -/
def padTwo (n : Int) : String :=
  if n < 10 then "0" ++ toString n else toString n

/-- Go `fmt.Sprintf("%.2f", x)` for the nonnegative values the builders
format (defaults and user fractions with at most two decimals, on which
rounding never fires). -/
def fmtF2 (q : ℚ) : String :=
  let n : Int := round (q * 100)
  toString (n / 100) ++ "." ++ padTwo (n % 100)

/-- Go `fmt.Sprintf("%.1f", x)` for the nonnegative weights the config
builder formats. -/
def fmtF1 (q : ℚ) : String :=
  let n : Int := round (q * 10)
  toString (n / 10) ++ "." ++ toString (n % 10)

/-- Insert into a Go map modelled as an association list: replaces any
existing binding for the key. -/
def insertKV (m : List (String × String)) (k v : String) : List (String × String) :=
  m.filter (fun p => p.1 != k) ++ [(k, v)]

/-- Merge user-provided labels over the base labels (`for k, v := range`
assignment loop; Go map iteration order does not affect the resulting
map, and the association list is kept in a canonical order). -/
def mergeKV (base user : List (String × String)) : List (String × String) :=
  user.foldl (fun acc p => insertKV acc p.1 p.2) base

/-- Go map indexing with the zero value `""` for a missing key. -/
def lookupKV (m : List (String × String)) (k : String) : String :=
  match m.find? (fun p => p.1 == k) with
  | some p => p.2
  | none => ""

/-- Constants from inferencescheduler_controller.go. -/
def defaultModelServerImage : String := "vllm/vllm-openai:latest"

def defaultEPPImage : String := "ghcr.io/llm-d/llm-d-inference-scheduler:v0.3.2"

def defaultModelServerPort : Int := 8000

def defaultEPPGRPCPort : Int := 9002

def defaultGatewayPort : Int := 80

/-! ### Child resource descriptors (the fields the builders populate) -/

/-- An `appsv1.Deployment` as populated by the two deployment builders. -/
structure DeploymentObj where
  name : String
  nspace : String
  labels : List (String × String)
  replicas : Int
  selectorLabels : List (String × String)
  templateLabels : List (String × String)
  serviceAccountName : String
  containerName : String
  image : String
  args : List String
  containerPorts : List (Int × String)
  hfTokenSecretName : String
  configMapVolume : String
deriving DecidableEq

/-- A `corev1.Service` as populated by the two service builders:
ports are (name, port, targetPort) triples. -/
structure ServiceObj where
  name : String
  nspace : String
  labels : List (String × String)
  selector : List (String × String)
  ports : List (String × Int × Int)
  svcType : String
deriving DecidableEq

/-- A `corev1.ServiceAccount`. -/
structure ServiceAccountObj where
  name : String
  nspace : String
deriving DecidableEq

/-- An `rbacv1.Role`: rules are (apiGroups, resources, verbs). -/
structure RoleObj where
  name : String
  nspace : String
  rules : List (List String × List String × List String)
deriving DecidableEq

/-- An `rbacv1.RoleBinding`. -/
structure RoleBindingObj where
  name : String
  nspace : String
  subjectKind : String
  subjectName : String
  subjectNs : String
  roleRefKind : String
  roleRefName : String
deriving DecidableEq

/-- A `corev1.ConfigMap` with the single `plugins.yaml` data key. -/
structure ConfigMapObj where
  name : String
  nspace : String
  pluginsYaml : String
deriving DecidableEq

/-- The `InferencePool` unstructured object. -/
structure InferencePoolObj where
  name : String
  nspace : String
  selectorLabels : List (String × String)
  targetPort : Int
  eppRefName : String
  eppRefPort : Int
  failureMode : String
deriving DecidableEq

/-- The `Gateway` unstructured object. -/
structure GatewayObj where
  name : String
  nspace : String
  gatewayClassName : String
  listenerName : String
  listenerProtocol : String
  listenerPort : Int
  allowedRoutesFrom : String
deriving DecidableEq

/-- The `HTTPRoute` unstructured object. -/
structure HTTPRouteObj where
  name : String
  nspace : String
  parentName : String
  parentNs : String
  pathMatchType : String
  pathMatchValue : String
  backendGroup : String
  backendKind : String
  backendName : String
  backendPort : Int
deriving DecidableEq

/-! ### The nine builders (resources.go) -/

/-- The `buildModelServerDeployment`: the vLLM Deployment.  Note that the Go
code passes the address of the non-pointer `Replicas`/`Port` fields to
`getDefaultInt32`, modelled as wrapping the value in `some`. -/
def buildModelServerDeployment (o : ISObj) : DeploymentObj :=
  let modelName := sanitizeName o.spec.modelServer.modelName
  let labels := mergeKV
    [("app", "vllm"), ("model", modelName), ("app.kubernetes.io/name", "model-server"),
     ("app.kubernetes.io/instance", o.name), ("app.kubernetes.io/component", "inference")]
    o.spec.modelServer.labels
  let replicas := getDefaultInt32 (some o.spec.modelServer.replicas) 2
  let image := getDefaultString o.spec.modelServer.image defaultModelServerImage
  let port := getDefaultInt32 (some o.spec.modelServer.port) defaultModelServerPort
  let args := ["--model=" ++ o.spec.modelServer.modelName, "--port=" ++ toString port]
  let args := args ++
    (if o.spec.modelServer.enablePrefCaching then ["--enable-prefix-caching"] else [])
  let gpuUtil := getDefaultFloat64 o.spec.modelServer.gpuMemoryUtilization ((9 : ℚ) / 10)
  let args := args ++ ["--gpu-memory-utilization=" ++ fmtF2 gpuUtil]
  { name := o.name ++ "-vllm"
    nspace := o.nspace
    labels := labels
    replicas := replicas
    selectorLabels := labels
    templateLabels := labels
    serviceAccountName := ""
    containerName := "vllm"
    image := image
    args := args
    containerPorts := [(port, "http")]
    hfTokenSecretName := o.spec.modelServer.hfTokenSecretName
    configMapVolume := "" }

/-- The `buildModelServerService`. -/
def buildModelServerService (o : ISObj) : ServiceObj :=
  let modelName := sanitizeName o.spec.modelServer.modelName
  let labels := [("app", "vllm"), ("model", modelName)]
  let port := getDefaultInt32 (some o.spec.modelServer.port) defaultModelServerPort
  { name := o.name ++ "-vllm"
    nspace := o.nspace
    labels := labels
    selector := labels
    ports := [("http", port, port)]
    svcType := "ClusterIP" }

/-- The `buildEPPServiceAccount`. -/
def buildEPPServiceAccount (o : ISObj) : ServiceAccountObj :=
  { name := o.name ++ "-epp", nspace := o.nspace }

/-- The `buildEPPRole`. -/
def buildEPPRole (o : ISObj) : RoleObj :=
  { name := o.name ++ "-epp"
    nspace := o.nspace
    rules :=
      [([""], ["pods"], ["get", "list", "watch"]),
       (["inference.networking.k8s.io"], ["inferencepools"], ["get", "list", "watch"])] }

/-- The `buildEPPRoleBinding`. -/
def buildEPPRoleBinding (o : ISObj) : RoleBindingObj :=
  { name := o.name ++ "-epp"
    nspace := o.nspace
    subjectKind := "ServiceAccount"
    subjectName := o.name ++ "-epp"
    subjectNs := o.nspace
    roleRefKind := "Role"
    roleRefName := o.name ++ "-epp" }

/-- The `buildEPPConfigMap`: assembles the plugins YAML text. -/
def buildEPPConfigMap (o : ISObj) : ConfigMapObj :=
  let base := "apiVersion: inference.networking.x-k8s.io/v1alpha1\nkind: EndpointPickerConfig\nplugins:"
  let p := o.spec.endpointPicker.plugins
  let cfg := base ++
    (match p.loadAwareScorer with
     | some sc =>
       if sc.enabled then
         "\n  - type: load-aware-scorer\n    weight: " ++
           fmtF1 (getDefaultFloat64 sc.weight 1) ++
           "\n    parameters:\n      queueThreshold: \"" ++
           getDefaultString (lookupKV sc.parameters "queueThreshold") "128" ++ "\""
       else ""
     | none => "")
  let cfg := cfg ++
    (match p.prefCacheScorer with
     | some sc =>
       if sc.enabled then
         "\n  - type: prefix-cache-scorer\n    weight: " ++
           fmtF1 (getDefaultFloat64 sc.weight 2) ++
           "\n    parameters:\n      cacheHitBonus: \"" ++
           getDefaultString (lookupKV sc.parameters "cacheHitBonus") "1.0" ++ "\""
       else ""
     | none => "")
  let cfg := cfg ++
    (match p.kvCacheUtilizationScorer with
     | some sc =>
       if sc.enabled then
         "\n  - type: kv-cache-utilization-scorer\n    weight: " ++
           fmtF1 (getDefaultFloat64 sc.weight 1)
       else ""
     | none => "")
  { name := o.name ++ "-epp-config"
    nspace := o.nspace
    pluginsYaml := cfg }

/-- The `buildEPPDeployment`. -/
def buildEPPDeployment (o : ISObj) : DeploymentObj :=
  let labels :=
    [("app", "epp"), ("app.kubernetes.io/name", "endpoint-picker"),
     ("app.kubernetes.io/instance", o.name), ("app.kubernetes.io/component", "routing")]
  let replicas := getDefaultInt32 (some o.spec.endpointPicker.replicas) 1
  let image := getDefaultString o.spec.endpointPicker.image defaultEPPImage
  let grpcPort := getDefaultInt32 (some o.spec.endpointPicker.grpcPort) defaultEPPGRPCPort
  { name := o.name ++ "-epp"
    nspace := o.nspace
    labels := labels
    replicas := replicas
    selectorLabels := labels
    templateLabels := labels
    serviceAccountName := o.name ++ "-epp"
    containerName := "epp"
    image := image
    args :=
      ["--pool-name=" ++ o.name ++ "-pool", "--pool-namespace=" ++ o.nspace,
       "--grpc-port=" ++ toString grpcPort, "--grpc-health-port=9003",
       "--config-file=/config/plugins.yaml", "--v=2"]
    containerPorts := [(grpcPort, "grpc"), (9003, "health"), (9090, "metrics")]
    hfTokenSecretName := ""
    configMapVolume := o.name ++ "-epp-config" }

/-- The `buildEPPService`. -/
def buildEPPService (o : ISObj) : ServiceObj :=
  let labels := [("app", "epp")]
  let grpcPort := getDefaultInt32 (some o.spec.endpointPicker.grpcPort) defaultEPPGRPCPort
  { name := o.name ++ "-epp"
    nspace := o.nspace
    labels := labels
    selector := labels
    ports := [("grpc", grpcPort, grpcPort), ("health", 9003, 9003), ("metrics", 9090, 9090)]
    svcType := "ClusterIP" }

/-- The `buildInferencePool`. -/
def buildInferencePool (o : ISObj) : InferencePoolObj :=
  let modelName := sanitizeName o.spec.modelServer.modelName
  let grpcPort := getDefaultInt32 (some o.spec.endpointPicker.grpcPort) defaultEPPGRPCPort
  let modelServerPort := getDefaultInt32 (some o.spec.modelServer.port) defaultModelServerPort
  { name := o.name ++ "-pool"
    nspace := o.nspace
    selectorLabels := [("app", "vllm"), ("model", modelName)]
    targetPort := modelServerPort
    eppRefName := o.name ++ "-epp"
    eppRefPort := grpcPort
    failureMode := "FailOpen" }

/-- The `buildGateway`. -/
def buildGateway (o : ISObj) : GatewayObj :=
  let className := getDefaultString o.spec.gateway.className "kgateway"
  let listenerPort := getDefaultInt32 (some o.spec.gateway.listenerPort) defaultGatewayPort
  { name := o.name ++ "-gateway"
    nspace := o.nspace
    gatewayClassName := className
    listenerName := "http"
    listenerProtocol := "HTTP"
    listenerPort := listenerPort
    allowedRoutesFrom := "Same" }

/-- The `buildHTTPRoute`. -/
def buildHTTPRoute (o : ISObj) : HTTPRouteObj :=
  let modelServerPort := getDefaultInt32 (some o.spec.modelServer.port) defaultModelServerPort
  { name := o.name ++ "-route"
    nspace := o.nspace
    parentName := o.name ++ "-gateway"
    parentNs := o.nspace
    pathMatchType := "PathPrefix"
    pathMatchValue := "/v1/"
    backendGroup := "inference.networking.k8s.io"
    backendKind := "InferencePool"
    backendName := o.name ++ "-pool"
    backendPort := modelServerPort }

/-- An object whose optional model-server fields sit at their Go zero
values (the state of an object that bypassed API-server defaulting). -/
def c9Obj : ISObj :=
  { sampleObj with
      spec :=
        { sampleSpec with
            modelServer := { sampleSpec.modelServer with replicas := 0 } } }

theorem fmtF2_ninety : fmtF2 ((9 : ℚ) / 10) = "0.90" := by
  unfold fmtF2
  have h : round (((9 : ℚ) / 10) * 100) = 90 := by norm_num
  rw [h]
  rfl

/-- C9 (code bug): with the replica count left unset (zero value), the
built Deployment carries 0 replicas — the in-code default of 2 passed to
`getDefaultInt32` is unreachable because the address of the non-pointer
`Replicas` field is never nil — whereas the pointer-typed GPU fraction
does receive its documented 0.9 default in the container argument. -/
theorem buildModelServerDeployment_replicas_bug :
    (buildModelServerDeployment c9Obj).replicas = 0 ∧
    getDefaultInt32 (some 0) 2 = 0 ∧
    (buildModelServerDeployment c9Obj).args =
      ["--model=Qwen/Qwen2", "--port=0", "--gpu-memory-utilization=0.90"] := by
  refine ⟨rfl, rfl, ?_⟩
  calc (buildModelServerDeployment c9Obj).args
      = ["--model=Qwen/Qwen2", "--port=0",
         "--gpu-memory-utilization=" ++ fmtF2 ((9 : ℚ) / 10)] := rfl
    _ = ["--model=Qwen/Qwen2", "--port=0", "--gpu-memory-utilization=0.90"] := by
        rw [fmtF2_ninety]
        rfl

/-! ### Prerequisite validation (inferencescheduler_controller.go 292-365) -/

/-- Whether `sub` occurs as a contiguous run in a rune list. -/
def charsHasSub (sub : List Char) : List Char → Bool
  | [] => sub.isEmpty
  | c :: rest => sub.isPrefixOf (c :: rest) || charsHasSub sub rest

/-- Go `strings.Contains`. -/
def strHasSub (s sub : String) : Bool := charsHasSub sub.toList s.toList

/-- The `contains` helper from the controller: does any slice element
contain the substring. -/
def sliceContains (slice : List String) (substr : String) : Bool :=
  slice.any (fun item => strHasSub item substr)

/-- The missing-prerequisite message literals from the controller. -/
def gatewayAPIMissing : String :=
  "Gateway API v1.3.0+ (install: kubectl apply -f https://github.com/kubernetes-sigs/gateway-api/releases/download/v1.3.0/standard-install.yaml)"

def httpRouteMissing : String := "Gateway API HTTPRoute CRD"

def gieMissing : String :=
  "Gateway API Inference Extension v1.1.0+ (install: kubectl apply -f https://github.com/kubernetes-sigs/gateway-api-inference-extension/releases/download/v1.1.0/manifests.yaml)"

def gatewayClassCRDMissing : String := "GatewayClass CRD"

def gatewayClassInstanceMissing (n : String) : String :=
  "GatewayClass '" ++ n ++ "' (install gateway implementation: kgateway, istio, or gke)"

/-- The error string `validatePrerequisites` returns for a non-empty
missing list. -/
def missingPrereqsMsg (l : List String) : String :=
  "missing prerequisites: " ++ String.intercalate "; " l ++
    ". See installation guide: https://github.com/aneeshkp/inference-scheduler-operator/blob/main/README.md#prerequisites"

/-- The answers the API server gives to the four existence probes of
`validatePrerequisites`: each list call either succeeds (`none`) or fails
with a `GoErr`; `gatewayClassNames` are the names of the GatewayClass
items returned when that list succeeds. -/
structure PrereqEnv where
  listGatewayErr : Option GoErr
  listHTTPRouteErr : Option GoErr
  listPoolErr : Option GoErr
  listGatewayClassErr : Option GoErr
  gatewayClassNames : List String
deriving DecidableEq

/-- The `missingPrereqs` slice accumulated by `validatePrerequisites`:
each probe appends its entry only when its list call failed with a
no-match error (any other error falls through the `IsNoMatchError` test
with nothing recorded); the GatewayClass probe additionally checks, on a
successful list, that the requested class name is among the items. -/
def missingList (env : PrereqEnv) (spec : ISSpec) : List String :=
  let m : List String := []
  let m := match env.listGatewayErr with
    | some e => if e = .noMatch then m ++ [gatewayAPIMissing] else m
    | none => m
  let m := match env.listHTTPRouteErr with
    | some e =>
      if e = .noMatch ∧ sliceContains m "Gateway API" = false then m ++ [httpRouteMissing]
      else m
    | none => m
  let m := match env.listPoolErr with
    | some e => if e = .noMatch then m ++ [gieMissing] else m
    | none => m
  let m := match env.listGatewayClassErr with
    | some e => if e = .noMatch then m ++ [gatewayClassCRDMissing] else m
    | none =>
      let gcName := getDefaultString spec.gateway.className "kgateway"
      if env.gatewayClassNames.contains gcName then m
      else m ++ [gatewayClassInstanceMissing gcName]
  m

/-- The `validatePrerequisites`: `some errorMessage` when the missing list is
non-empty, `none` (success) otherwise. -/
def validatePrerequisites (env : PrereqEnv) (spec : ISSpec) : Option String :=
  let m := missingList env spec
  if m.isEmpty then none else some (missingPrereqsMsg m)

/-- The environment of C6's counterexample: the Gateway probe fails with a
transient (non-no-match) error while everything else is present. -/
def c6Env : PrereqEnv :=
  { listGatewayErr := some (.other "connection refused")
    listHTTPRouteErr := none
    listPoolErr := none
    listGatewayClassErr := none
    gatewayClassNames := ["kgateway"] }

/-- C6 counterexample: a list error other than "no matching type" is
silently ignored by `validatePrerequisites` — validation reports success
instead of failing so the caller would retry. -/
theorem validatePrerequisites_ignores_other_errors :
    c6Env.listGatewayErr = some (GoErr.other "connection refused") ∧
    GoErr.other "connection refused" ≠ GoErr.noMatch ∧
    validatePrerequisites c6Env sampleSpec = none := by
  refine ⟨rfl, by decide, by decide⟩

/-- C6 (amended): a "no matching type" probe result is recorded as missing
(the Gateway probe's entry heads the missing list and validation fails
with the corresponding message), but any other list error is silently
ignored: when all four probes fail with non-no-match errors, validation
reports success. -/
theorem validatePrerequisites_amended (env : PrereqEnv) (spec : ISSpec) :
    (env.listGatewayErr = some .noMatch →
      ∃ rest, missingList env spec = gatewayAPIMissing :: rest ∧
        validatePrerequisites env spec =
          some (missingPrereqsMsg (gatewayAPIMissing :: rest))) ∧
    (∀ e1 e2 e3 e4 : GoErr,
      e1 ≠ .noMatch → e2 ≠ .noMatch → e3 ≠ .noMatch → e4 ≠ .noMatch →
      env.listGatewayErr = some e1 → env.listHTTPRouteErr = some e2 →
      env.listPoolErr = some e3 → env.listGatewayClassErr = some e4 →
      validatePrerequisites env spec = none) := by
  constructor
  · intro hg
    have h : ∃ rest, missingList env spec = gatewayAPIMissing :: rest := by
      unfold missingList
      simp only [hg]
      repeat' split
      all_goals
        first
        | exact ⟨_, rfl⟩
        | exact absurd trivial (by assumption)
    obtain ⟨rest, hm⟩ := h
    refine ⟨rest, hm, ?_⟩
    unfold validatePrerequisites
    rw [hm]
    rfl
  · intro e1 e2 e3 e4 h1 h2 h3 h4 he1 he2 he3 he4
    simp [validatePrerequisites, missingList, he1, he2, he3, he4, h1, h2, h3, h4]

/-- The environment of the amended C6 witness: all four probes fail with
transient errors. -/
def c6EnvAll : PrereqEnv :=
  { listGatewayErr := some (.other "e1")
    listHTTPRouteErr := some (.other "e2")
    listPoolErr := some (.other "e3")
    listGatewayClassErr := some (.other "e4")
    gatewayClassNames := [] }

/-- Witness for the amended C6 theorem: with every probe failing
transiently, validation succeeds. -/
theorem validatePrerequisites_amended_witness :
    validatePrerequisites c6EnvAll sampleSpec = none :=
  (validatePrerequisites_amended c6EnvAll sampleSpec).2 (.other "e1") (.other "e2")
    (.other "e3") (.other "e4") (by decide) (by decide) (by decide) (by decide)
    rfl rfl rfl rfl

/-! ### The convergence upsert (createOrUpdate, lines 390-438) -/

/-- A child object as the generic client sees it: identity (kind,
namespace, name), the optimistic-concurrency token, the controller owner
reference, and the rest of the object opaquely as `payload`. -/
structure KObj where
  kind : String
  nspace : String
  name : String
  resourceVersion : String
  controllerOwner : Option String
  payload : String
deriving DecidableEq

/-- The `ctrl.SetControllerReference` (modelled as always succeeding; the
root object is the only controller in play). -/
def setControllerReference (owner : String) (o : KObj) : KObj :=
  { o with controllerOwner := some owner }

/-- The write `createOrUpdate` finally issues. -/
inductive UpsertAction
  | create (o : KObj)
  | update (o : KObj)
deriving DecidableEq

/-- The `createOrUpdate` (and the structurally identical
`createOrUpdateUnstructured`): read the existing object; if the read
reports not-found, attach the owner reference and create; if it returns
an object, copy that object's resourceVersion onto the new payload,
attach the owner reference and issue a whole-object update; return any
other read error as the upsert's error. -/
def createOrUpdate (getResult : Except GoErr KObj) (obj : KObj) (owner : String) :
    Except GoErr UpsertAction :=
  match getResult with
  | .error .notFound => .ok (.create (setControllerReference owner obj))
  | .error e => .error e
  | .ok existing =>
    .ok (.update (setControllerReference owner
      { obj with resourceVersion := existing.resourceVersion }))

/-- The read `createOrUpdate` performs: `r.Get` with the object's own
key, i.e. a lookup by (kind, namespace, name) in a store modelled as a
list of objects. -/
def storeGet (σ : List KObj) (kind nspace name : String) : Except GoErr KObj :=
  match σ.find? (fun o => o.kind == kind && o.nspace == nspace && o.name == name) with
  | some o => .ok o
  | none => .error .notFound

/-- The `createOrUpdate` against a concrete store. -/
def createOrUpdateInStore (σ : List KObj) (obj : KObj) (owner : String) :
    Except GoErr UpsertAction :=
  createOrUpdate (storeGet σ obj.kind obj.nspace obj.name) obj owner

/-- C2: the upsert reads an existing object by (kind, namespace, name); a
not-found read leads to a create of the descriptor with the owner
reference attached; an existing object leads to a whole-object replacing
update that carries forward only the existing object's resourceVersion
(every other field, payload included, comes from the new descriptor) and
re-attaches the owner reference; any read error other than not-found is
returned as the upsert's error. -/
theorem createOrUpdate_semantics (σ : List KObj) (obj existing : KObj) (owner : String)
    (e : GoErr) :
    (createOrUpdate (.error .notFound) obj owner =
      .ok (.create { obj with controllerOwner := some owner })) ∧
    (createOrUpdate (.ok existing) obj owner =
      .ok (.update
        { obj with resourceVersion := existing.resourceVersion, controllerOwner := some owner })) ∧
    (e ≠ .notFound → createOrUpdate (.error e) obj owner = .error e) ∧
    (∀ o, storeGet σ obj.kind obj.nspace obj.name = .ok o →
      o.kind = obj.kind ∧ o.nspace = obj.nspace ∧ o.name = obj.name ∧
      createOrUpdateInStore σ obj owner =
        .ok (.update
          { obj with resourceVersion := o.resourceVersion, controllerOwner := some owner })) ∧
    (storeGet σ obj.kind obj.nspace obj.name = .error .notFound →
      createOrUpdateInStore σ obj owner =
        .ok (.create { obj with controllerOwner := some owner })) := by
  refine ⟨rfl, rfl, ?_, ?_, ?_⟩
  · intro he
    cases e with
    | notFound => exact absurd rfl he
    | noMatch => rfl
    | other m => rfl
  · intro o h
    unfold storeGet at h
    cases hf : List.find?
        (fun o => o.kind == obj.kind && o.nspace == obj.nspace && o.name == obj.name) σ with
    | none =>
      rw [hf] at h
      exact Except.noConfusion h
    | some o' =>
      rw [hf] at h
      have h' : (Except.ok o' : Except GoErr KObj) = .ok o := h
      injection h' with h2
      subst h2
      have hp := List.find?_some hf
      simp only [Bool.and_eq_true, beq_iff_eq] at hp
      refine ⟨hp.1.1, hp.1.2, hp.2, ?_⟩
      unfold createOrUpdateInStore storeGet
      rw [hf]
      rfl
  · intro h
    unfold createOrUpdateInStore
    rw [h]
    rfl

/-- The pre-existing object of the C2 witness. -/
def c2Existing : KObj :=
  { kind := "Deployment"
    nspace := "ns"
    name := "demo-vllm"
    resourceVersion := "41"
    controllerOwner := none
    payload := "old" }

/-- The freshly built descriptor of the C2 witness. -/
def c2Desired : KObj :=
  { kind := "Deployment"
    nspace := "ns"
    name := "demo-vllm"
    resourceVersion := ""
    controllerOwner := none
    payload := "new" }

/-- Witness for C2 at a concrete store: the existing object's token "41"
is carried onto the new payload and a replacing update is issued. -/
theorem createOrUpdate_semantics_witness :
    createOrUpdateInStore [c2Existing] c2Desired "demo" =
      .ok (.update
        { c2Desired with resourceVersion := "41", controllerOwner := some "demo" }) := by
  have h := (createOrUpdate_semantics [c2Existing] c2Desired c2Existing "demo"
    .noMatch).2.2.2.1 c2Existing (by rfl)
  exact h.2.2.2

/-! ### The reconcile loop (Reconcile, lines 75-288) -/

/-- The eleven child upserts the Deploying phase issues, in program
order. -/
inductive ChildId
  | msDeployment
  | msService
  | eppSA
  | eppRole
  | eppRoleBinding
  | eppConfigMap
  | eppDeployment
  | eppService
  | infPool
  | gateway
  | httpRoute
deriving DecidableEq

/-- What `isDeploymentReady`'s Get observes on a deployment: the status
ready-replica count and the (dereferenced, never nil for deployments this
controller creates) spec replica count. -/
structure DeployObs where
  readyReplicas : Int
  specReplicas : Int
deriving DecidableEq

/-- The `isDeploymentReady`: fetch the deployment and compare ready replicas
to desired replicas; propagate the fetch error. -/
def isDeploymentReady (obs : Except GoErr DeployObs) : Except GoErr Bool :=
  match obs with
  | .error e => .error e
  | .ok d => .ok (d.readyReplicas == d.specReplicas)

/-- The environment of one reconcile invocation: the answer to every
store call the loop can make.  Status updates whose result the Go code
ignores need no entry. -/
structure Env where
  rootGet : Except GoErr ISObj
  rootUpdateErr : Option GoErr
  initStatusErr : Option GoErr
  finalStatusErr : Option GoErr
  prereq : PrereqEnv
  upsertRes : ChildId → Option GoErr
  msDeployObs : Except GoErr DeployObs
  eppDeployObs : Except GoErr DeployObs

/-- The externally visible effects of one invocation, in order. -/
inductive Event
  | addFinalizer
  | removeFinalizer
  | updateRoot
  | statusUpdate
  | upsert (kind : String) (name : String)
deriving DecidableEq

/-- The value of one invocation: the requeue delay (in seconds) of the
returned `ctrl.Result`, the returned error, the final in-memory object,
and the effect trace. -/
structure RecOut where
  requeueAfter : Option Int
  err : Option GoErr
  obj : Option ISObj
  trace : List Event
deriving DecidableEq

/-- The upsert calls in a trace, as (kind, name) pairs. -/
def upsertsOf (tr : List Event) : List (String × String) :=
  tr.filterMap (fun e =>
    match e with
    | .upsert k n => some (k, n)
    | _ => none)

/-- Set the phase field. -/
def setPhase (obj : ISObj) (p : String) : ISObj :=
  { obj with status := { obj.status with phase := p } }

/-- Lines 256-264: phase `Ready`, final status update (checked), then the
5-minute steady-state requeue. -/
def finishReady (env : Env) (obj : ISObj) (tr : List Event) : RecOut :=
  let obj := setPhase obj "Ready"
  match env.finalStatusErr with
  | some e => ⟨none, some e, some obj, tr ++ [.statusUpdate]⟩
  | none => ⟨some 300, none, some obj, tr ++ [.statusUpdate]⟩

/-- Lines 235-253: Gateway and HTTPRoute. -/
def stepGatewayRoute (env : Env) (now : Int) (obj : ISObj) (tr : List Event) : RecOut :=
  let tr := tr ++ [.upsert "Gateway" (buildGateway obj).name]
  match env.upsertRes .gateway with
  | some e =>
    let obj := updateCondition obj "GatewayReady" .cfalse "CreationFailed" (goErrMsg e) now
    ⟨none, some e, some obj, tr ++ [.statusUpdate]⟩
  | none =>
    let tr := tr ++ [.upsert "HTTPRoute" (buildHTTPRoute obj).name]
    match env.upsertRes .httpRoute with
    | some e => ⟨none, some e, some obj, tr⟩
    | none =>
      let obj := updateCondition obj "GatewayReady" .ctrue "Ready"
        "Gateway and HTTPRoute created successfully" now
      let obj := { obj with status := { obj.status with gatewayReady := true } }
      finishReady env obj tr

/-- Lines 221-233: the InferencePool. -/
def stepPool (env : Env) (now : Int) (obj : ISObj) (tr : List Event) : RecOut :=
  let tr := tr ++ [.upsert "InferencePool" (buildInferencePool obj).name]
  match env.upsertRes .infPool with
  | some e =>
    let obj := updateCondition obj "InferencePoolReady" .cfalse "CreationFailed" (goErrMsg e) now
    ⟨none, some e, some obj, tr ++ [.statusUpdate]⟩
  | none =>
    let obj := updateCondition obj "InferencePoolReady" .ctrue "Ready"
      "InferencePool created successfully" now
    let obj := { obj with status := { obj.status with inferencePoolReady := true } }
    stepGatewayRoute env now obj tr

/-- Lines 205-219: EPP readiness gate. -/
def checkEPPReady (env : Env) (now : Int) (obj : ISObj) (tr : List Event) : RecOut :=
  match isDeploymentReady env.eppDeployObs with
  | .error e => ⟨none, some e, some obj, tr⟩
  | .ok false =>
    let obj := updateCondition obj "EPPReady" .cfalse "NotReady" "EPP pods are not ready yet" now
    let obj := { obj with status := { obj.status with eppReplicas := 0 } }
    ⟨some 30, none, some obj, tr ++ [.statusUpdate]⟩
  | .ok true =>
    let obj := updateCondition obj "EPPReady" .ctrue "Ready" "EPP is running" now
    let obj :=
      { obj with status := { obj.status with eppReplicas := obj.spec.endpointPicker.replicas } }
    stepPool env now obj tr

/-- Lines 168-203: the six EPP child upserts. -/
def stepEPP (env : Env) (now : Int) (obj : ISObj) (tr : List Event) : RecOut :=
  let tr := tr ++ [.upsert "ServiceAccount" (buildEPPServiceAccount obj).name]
  match env.upsertRes .eppSA with
  | some e => ⟨none, some e, some obj, tr⟩
  | none =>
    let tr := tr ++ [.upsert "Role" (buildEPPRole obj).name]
    match env.upsertRes .eppRole with
    | some e => ⟨none, some e, some obj, tr⟩
    | none =>
      let tr := tr ++ [.upsert "RoleBinding" (buildEPPRoleBinding obj).name]
      match env.upsertRes .eppRoleBinding with
      | some e => ⟨none, some e, some obj, tr⟩
      | none =>
        let tr := tr ++ [.upsert "ConfigMap" (buildEPPConfigMap obj).name]
        match env.upsertRes .eppConfigMap with
        | some e => ⟨none, some e, some obj, tr⟩
        | none =>
          let tr := tr ++ [.upsert "Deployment" (buildEPPDeployment obj).name]
          match env.upsertRes .eppDeployment with
          | some e =>
            let obj := updateCondition obj "EPPReady" .cfalse "DeploymentFailed" (goErrMsg e) now
            ⟨none, some e, some obj, tr ++ [.statusUpdate]⟩
          | none =>
            let tr := tr ++ [.upsert "Service" (buildEPPService obj).name]
            match env.upsertRes .eppService with
            | some e => ⟨none, some e, some obj, tr⟩
            | none => checkEPPReady env now obj tr

/-- Lines 152-166: model-server readiness gate. -/
def checkMSReady (env : Env) (now : Int) (obj : ISObj) (tr : List Event) : RecOut :=
  match isDeploymentReady env.msDeployObs with
  | .error e => ⟨none, some e, some obj, tr⟩
  | .ok false =>
    let obj := updateCondition obj "ModelServerReady" .cfalse "NotReady"
      "Model server pods are not ready yet" now
    let obj := { obj with status := { obj.status with modelServerReplicas := 0 } }
    ⟨some 30, none, some obj, tr ++ [.statusUpdate]⟩
  | .ok true =>
    let obj := updateCondition obj "ModelServerReady" .ctrue "Ready"
      "All model server pods are running" now
    let obj :=
      { obj with status :=
          { obj.status with modelServerReplicas := obj.spec.modelServer.replicas } }
    stepEPP env now obj tr

/-- Lines 135-150: model-server Deployment and Service upserts. -/
def stepModelServer (env : Env) (now : Int) (obj : ISObj) (tr : List Event) : RecOut :=
  let tr := tr ++ [.upsert "Deployment" (buildModelServerDeployment obj).name]
  match env.upsertRes .msDeployment with
  | some e =>
    let obj := updateCondition obj "ModelServerReady" .cfalse "DeploymentFailed" (goErrMsg e) now
    ⟨none, some e, some obj, tr ++ [.statusUpdate]⟩
  | none =>
    let tr := tr ++ [.upsert "Service" (buildModelServerService obj).name]
    match env.upsertRes .msService with
    | some e => ⟨none, some e, some obj, tr⟩
    | none => checkMSReady env now obj tr

/-- Lines 111-133: prerequisite gate, and on success the transition into
Deploying.  The status update on the failure path ignores its error. -/
def stepValidate (env : Env) (now : Int) (obj : ISObj) (tr : List Event) : RecOut :=
  match validatePrerequisites env.prereq obj.spec with
  | some msg =>
    let obj :=
      { obj with status :=
          { obj.status with
              prerequisitesValidated := false
              prerequisiteMessage := msg
              phase := "PrerequisitesMissing" } }
    let obj := updateCondition obj "PrerequisitesValidated" .cfalse "ValidationFailed" msg now
    ⟨some 60, none, some obj, tr ++ [.statusUpdate]⟩
  | none =>
    let obj :=
      if obj.status.prerequisitesValidated = false then
        let obj :=
          { obj with status :=
              { obj.status with
                  prerequisitesValidated := true
                  prerequisiteMessage := "All prerequisites validated successfully" } }
        updateCondition obj "PrerequisitesValidated" .ctrue "Validated"
          "Gateway API, GIE, and GatewayClass are present" now
      else obj
    let obj := setPhase obj "Deploying"
    stepModelServer env now obj (tr ++ [.statusUpdate])

/-- Lines 103-109: the one-time `Initializing` phase write (checked). -/
def ensureInitialPhase (env : Env) (now : Int) (obj : ISObj) (tr : List Event) : RecOut :=
  if obj.status.phase = "" then
    let obj := setPhase obj "Initializing"
    let tr := tr ++ [.statusUpdate]
    match env.initStatusErr with
    | some e => ⟨none, some e, some obj, tr⟩
    | none => stepValidate env now obj tr
  else stepValidate env now obj tr

/-- Lines 95-101: attach the finalizer (checked update) before anything
else. -/
def reconcileLive (env : Env) (now : Int) (obj : ISObj) : RecOut :=
  if finalizerName ∈ obj.finalizers then ensureInitialPhase env now obj []
  else
    let obj := { obj with finalizers := obj.finalizers ++ [finalizerName] }
    match env.rootUpdateErr with
    | some e => ⟨none, some e, some obj, [.addFinalizer, .updateRoot]⟩
    | none => ensureInitialPhase env now obj [.addFinalizer, .updateRoot]

/-- The `handleDeletion` (lines 267-288): no-op when the finalizer is already
gone; otherwise remove it (cleanup is cascade-via-owner-reference only —
no per-child delete call exists) and persist. -/
def handleDeletion (env : Env) (obj : ISObj) : RecOut :=
  if finalizerName ∈ obj.finalizers then
    let obj := { obj with finalizers := obj.finalizers.filter (fun f => f != finalizerName) }
    match env.rootUpdateErr with
    | some e => ⟨none, some e, some obj, [.removeFinalizer, .updateRoot]⟩
    | none => ⟨none, none, some obj, [.removeFinalizer, .updateRoot]⟩
  else ⟨none, none, some obj, []⟩

/-- The `Reconcile` (lines 75-264): fetch the root, treat not-found as
already deleted, route deletion-marked objects to `handleDeletion`, and
otherwise run the phase sequence. -/
def reconcile (env : Env) (now : Int) : RecOut :=
  match env.rootGet with
  | .error .notFound => ⟨none, none, none, []⟩
  | .error e => ⟨none, some e, none, []⟩
  | .ok obj =>
    if obj.deletionTimestampSet then handleDeletion env obj
    else reconcileLive env now obj

/-! ### Path lemmas through the reconcile loop -/

theorem upsertsOf_append (a b : List Event) :
    upsertsOf (a ++ b) = upsertsOf a ++ upsertsOf b := by
  unfold upsertsOf
  exact List.filterMap_append a b _

theorem upsertsOf_eq_nil {tr : List Event} (h : ∀ k n, Event.upsert k n ∉ tr) :
    upsertsOf tr = [] := by
  induction tr with
  | nil => rfl
  | cons e rest ih =>
    have hrest : ∀ k n, Event.upsert k n ∉ rest := fun k n hm =>
      h k n (List.mem_cons_of_mem _ hm)
    cases e with
    | addFinalizer => simpa [upsertsOf, List.filterMap_cons] using ih hrest
    | removeFinalizer => simpa [upsertsOf, List.filterMap_cons] using ih hrest
    | updateRoot => simpa [upsertsOf, List.filterMap_cons] using ih hrest
    | statusUpdate => simpa [upsertsOf, List.filterMap_cons] using ih hrest
    | upsert k n => exact absurd (List.mem_cons_self _ _) (h k n)

/-- After `updateCondition obj t s r m now`, type `t` is present with
status `s`, the object's generation, reason `r`, message `m` and some
timestamp. -/
theorem findCondition_updateCondition (obj : ISObj) (t : String) (s : CStatus)
    (r m : String) (now : Int) :
    ∃ ltt, findCondition (updateCondition obj t s r m now).status.conditions t =
      some ⟨t, s, obj.generation, ltt, r, m⟩ := by
  cases hf : findCondition obj.status.conditions t with
  | none => exact ⟨now, findCondition_set_none _ _ hf⟩
  | some c =>
    have hct : c.typ = t := findCondition_typ_eq hf
    obtain ⟨ct, cs, cg, cl, cr, cm⟩ := c
    simp only at hct
    have hct2 : t = ct := hct.symm
    subst hct2
    by_cases hcs : cs = s
    · subst hcs
      refine ⟨cl, ?_⟩
      have h1 := findCondition_set_some obj.status.conditions
        ⟨t, cs, obj.generation, now, r, m⟩ ⟨t, cs, cg, cl, cr, cm⟩ hf
      have hm : mergeCond (⟨t, cs, cg, cl, cr, cm⟩ : Condition)
          ⟨t, cs, obj.generation, now, r, m⟩ = ⟨t, cs, obj.generation, cl, r, m⟩ := by
        simp [mergeCond]
      rw [hm] at h1
      exact h1
    · refine ⟨now, ?_⟩
      have h1 := findCondition_set_some obj.status.conditions
        ⟨t, s, obj.generation, now, r, m⟩ ⟨t, cs, cg, cl, cr, cm⟩ hf
      have hm : mergeCond (⟨t, cs, cg, cl, cr, cm⟩ : Condition)
          ⟨t, s, obj.generation, now, r, m⟩ = ⟨t, s, obj.generation, now, r, m⟩ := by
        simp [mergeCond, hcs]
      rw [hm] at h1
      exact h1

/-- Any live (non-deleting) invocation that survives the finalizer and
initial-phase writes lands in `stepValidate` with an object that differs
from the fetched one only in finalizers and phase, with an upsert-free
trace so far. -/
theorem reconcile_reaches_validate (env : Env) (now : Int) (obj : ISObj)
    (hget : env.rootGet = .ok obj) (hdel : obj.deletionTimestampSet = false)
    (hfin : finalizerName ∈ obj.finalizers ∨ env.rootUpdateErr = none)
    (hph : obj.status.phase ≠ "" ∨ env.initStatusErr = none) :
    ∃ (obj1 : ISObj) (tr : List Event),
      reconcile env now = stepValidate env now obj1 tr ∧
      obj1.spec = obj.spec ∧ obj1.generation = obj.generation ∧
      obj1.name = obj.name ∧ obj1.nspace = obj.nspace ∧
      obj1.status.prerequisitesValidated = obj.status.prerequisitesValidated ∧
      (∀ k n, Event.upsert k n ∉ tr) := by
  have hrec : reconcile env now = reconcileLive env now obj := by
    unfold reconcile
    rw [hget]
    simp [hdel]
  by_cases hf : finalizerName ∈ obj.finalizers
  · have hlive : reconcileLive env now obj = ensureInitialPhase env now obj [] := by
      unfold reconcileLive
      rw [if_pos hf]
    by_cases hp : obj.status.phase = ""
    · have hinit : env.initStatusErr = none := by
        rcases hph with h | h
        · exact absurd hp h
        · exact h
      refine ⟨setPhase obj "Initializing", [.statusUpdate], ?_, rfl, rfl, rfl, rfl, rfl, ?_⟩
      · rw [hrec, hlive]
        unfold ensureInitialPhase
        rw [if_pos hp, hinit]
        rfl
      · intro k n
        simp
    · refine ⟨obj, [], ?_, rfl, rfl, rfl, rfl, rfl, ?_⟩
      · rw [hrec, hlive]
        unfold ensureInitialPhase
        rw [if_neg hp]
      · intro k n
        simp
  · have hru : env.rootUpdateErr = none := by
      rcases hfin with h | h
      · exact absurd h hf
      · exact h
    have hlive : reconcileLive env now obj =
        ensureInitialPhase env now { obj with finalizers := obj.finalizers ++ [finalizerName] }
          [.addFinalizer, .updateRoot] := by
      unfold reconcileLive
      rw [if_neg hf, hru]
    by_cases hp : obj.status.phase = ""
    · have hinit : env.initStatusErr = none := by
        rcases hph with h | h
        · exact absurd hp h
        · exact h
      refine ⟨setPhase { obj with finalizers := obj.finalizers ++ [finalizerName] }
          "Initializing", [.addFinalizer, .updateRoot, .statusUpdate],
          ?_, rfl, rfl, rfl, rfl, rfl, ?_⟩
      · rw [hrec, hlive]
        unfold ensureInitialPhase
        rw [if_pos hp, hinit]
        rfl
      · intro k n
        simp
    · refine ⟨{ obj with finalizers := obj.finalizers ++ [finalizerName] },
          [.addFinalizer, .updateRoot], ?_, rfl, rfl, rfl, rfl, rfl, ?_⟩
      · rw [hrec, hlive]
        unfold ensureInitialPhase
        rw [if_neg hp]
      · intro k n
        simp

/-- The `stepValidate` on a failing validation: 60s requeue, no error, no
upsert, and the status carries the missing-list message. -/
theorem stepValidate_missing (env : Env) (now : Int) (obj1 : ISObj) (msg : String)
    (tr : List Event)
    (hmiss : validatePrerequisites env.prereq obj1.spec = some msg)
    (hnoup : ∀ k n, Event.upsert k n ∉ tr) :
    (∀ k n, Event.upsert k n ∉ (stepValidate env now obj1 tr).trace) ∧
    (stepValidate env now obj1 tr).requeueAfter = some 60 ∧
    (stepValidate env now obj1 tr).err = none ∧
    ∃ o, (stepValidate env now obj1 tr).obj = some o ∧
      o.status.phase = "PrerequisitesMissing" ∧
      o.status.prerequisiteMessage = msg ∧
      o.status.prerequisitesValidated = false ∧
      o.generation = obj1.generation ∧
      ∃ ltt, findCondition o.status.conditions "PrerequisitesValidated" =
        some ⟨"PrerequisitesValidated", .cfalse, obj1.generation, ltt, "ValidationFailed", msg⟩ := by
  unfold stepValidate
  rw [hmiss]
  refine ⟨?_, rfl, rfl, ?_⟩
  · intro k n hm
    simp only [List.mem_append, List.mem_singleton] at hm
    rcases hm with hm | hm
    · exact hnoup k n hm
    · exact Event.noConfusion hm
  · refine ⟨_, rfl, rfl, rfl, rfl, rfl, ?_⟩
    exact findCondition_updateCondition
      { obj1 with status :=
          { obj1.status with
              prerequisitesValidated := false
              prerequisiteMessage := msg
              phase := "PrerequisitesMissing" } }
      "PrerequisitesValidated" .cfalse "ValidationFailed" msg now

/-- C1: whenever prerequisite validation reports a missing list, the
invocation issues no child upsert, sets phase `PrerequisitesMissing`,
stores the validator's message and a false `PrerequisitesValidated`
condition, and returns a 60-second requeue with no error. -/
theorem reconcile_prereq_missing (env : Env) (now : Int) (obj : ISObj) (msg : String)
    (hget : env.rootGet = .ok obj) (hdel : obj.deletionTimestampSet = false)
    (hfin : finalizerName ∈ obj.finalizers ∨ env.rootUpdateErr = none)
    (hph : obj.status.phase ≠ "" ∨ env.initStatusErr = none)
    (hmiss : validatePrerequisites env.prereq obj.spec = some msg) :
    (∀ k n, Event.upsert k n ∉ (reconcile env now).trace) ∧
    (reconcile env now).requeueAfter = some 60 ∧
    (reconcile env now).err = none ∧
    ∃ o, (reconcile env now).obj = some o ∧
      o.status.phase = "PrerequisitesMissing" ∧
      o.status.prerequisiteMessage = msg ∧
      o.status.prerequisitesValidated = false ∧
      ∃ ltt, findCondition o.status.conditions "PrerequisitesValidated" =
        some ⟨"PrerequisitesValidated", .cfalse, obj.generation, ltt, "ValidationFailed", msg⟩ := by
  obtain ⟨obj1, tr, hrec, hspec, hgen, -, -, -, hnoup⟩ :=
    reconcile_reaches_validate env now obj hget hdel hfin hph
  have hmiss1 : validatePrerequisites env.prereq obj1.spec = some msg := by
    rw [hspec]
    exact hmiss
  obtain ⟨h1, h2, h3, o, ho, hph', hmsg', hval', hgen', ltt, hcond⟩ :=
    stepValidate_missing env now obj1 msg tr hmiss1 hnoup
  rw [hrec]
  refine ⟨h1, h2, h3, o, ho, hph', hmsg', hval', ltt, ?_⟩
  rw [← hgen]
  exact hcond

/-- The `stepValidate` on success: possibly records the success condition,
then enters Deploying and the model-server step. -/
theorem stepValidate_ok (env : Env) (now : Int) (obj1 : ISObj) (tr : List Event)
    (hok : validatePrerequisites env.prereq obj1.spec = none) :
    ∃ obj2 : ISObj,
      stepValidate env now obj1 tr = stepModelServer env now obj2 (tr ++ [.statusUpdate]) ∧
      obj2.spec = obj1.spec ∧ obj2.generation = obj1.generation ∧
      obj2.name = obj1.name ∧ obj2.nspace = obj1.nspace := by
  unfold stepValidate
  simp only [hok]
  by_cases hpv : obj1.status.prerequisitesValidated = false
  · rw [if_pos hpv]
    exact ⟨_, rfl, rfl, rfl, rfl, rfl⟩
  · rw [if_neg hpv]
    exact ⟨_, rfl, rfl, rfl, rfl, rfl⟩

/-- The `stepModelServer` with both upserts succeeding. -/
theorem stepModelServer_ok (env : Env) (now : Int) (obj2 : ISObj) (tr : List Event)
    (hms : env.upsertRes .msDeployment = none) (hsvc : env.upsertRes .msService = none) :
    stepModelServer env now obj2 tr =
      checkMSReady env now obj2
        ((tr ++ [.upsert "Deployment" (obj2.name ++ "-vllm")])
          ++ [.upsert "Service" (obj2.name ++ "-vllm")]) := by
  unfold stepModelServer
  simp only [hms, hsvc]
  rfl

/-- The model-server readiness gate on a non-ready deployment. -/
theorem checkMSReady_notReady (env : Env) (now : Int) (obj2 : ISObj) (tr : List Event)
    (d : DeployObs) (hobs : env.msDeployObs = .ok d)
    (hne : d.readyReplicas ≠ d.specReplicas) :
    (checkMSReady env now obj2 tr).requeueAfter = some 30 ∧
    (checkMSReady env now obj2 tr).err = none ∧
    (checkMSReady env now obj2 tr).trace = tr ++ [.statusUpdate] ∧
    ∃ o, (checkMSReady env now obj2 tr).obj = some o ∧
      o.status.modelServerReplicas = 0 ∧
      ∃ ltt, findCondition o.status.conditions "ModelServerReady" =
        some ⟨"ModelServerReady", .cfalse, obj2.generation, ltt, "NotReady",
          "Model server pods are not ready yet"⟩ := by
  have hbeq : (d.readyReplicas == d.specReplicas) = false := by simpa using hne
  have hstep : ∃ o,
      checkMSReady env now obj2 tr = ⟨some 30, none, some o, tr ++ [.statusUpdate]⟩ ∧
      o.status.modelServerReplicas = 0 ∧
      o.status.conditions = (updateCondition obj2 "ModelServerReady" .cfalse "NotReady"
        "Model server pods are not ready yet" now).status.conditions := by
    unfold checkMSReady isDeploymentReady
    simp only [hobs, hbeq]
    exact ⟨_, rfl, rfl, rfl⟩
  obtain ⟨o, ho, hrep, hconds⟩ := hstep
  rw [ho]
  refine ⟨rfl, rfl, rfl, o, rfl, hrep, ?_⟩
  rw [hconds]
  exact findCondition_updateCondition obj2 "ModelServerReady" .cfalse "NotReady"
    "Model server pods are not ready yet" now

/-- The model-server readiness gate on a ready deployment. -/
theorem checkMSReady_ready (env : Env) (now : Int) (obj2 : ISObj) (tr : List Event)
    (d : DeployObs) (hobs : env.msDeployObs = .ok d)
    (heq : d.readyReplicas = d.specReplicas) :
    ∃ obj3 : ISObj,
      checkMSReady env now obj2 tr = stepEPP env now obj3 tr ∧
      obj3.spec = obj2.spec ∧ obj3.generation = obj2.generation ∧
      obj3.name = obj2.name ∧ obj3.nspace = obj2.nspace := by
  have hbeq : (d.readyReplicas == d.specReplicas) = true := by simpa using heq
  unfold checkMSReady isDeploymentReady
  simp only [hobs, hbeq]
  exact ⟨_, rfl, rfl, rfl, rfl, rfl⟩

/-- The `stepEPP` with all six upserts succeeding. -/
theorem stepEPP_ok (env : Env) (now : Int) (obj3 : ISObj) (tr : List Event)
    (h1 : env.upsertRes .eppSA = none) (h2 : env.upsertRes .eppRole = none)
    (h3 : env.upsertRes .eppRoleBinding = none) (h4 : env.upsertRes .eppConfigMap = none)
    (h5 : env.upsertRes .eppDeployment = none) (h6 : env.upsertRes .eppService = none) :
    stepEPP env now obj3 tr =
      checkEPPReady env now obj3
        ((((((tr ++ [.upsert "ServiceAccount" (obj3.name ++ "-epp")])
          ++ [.upsert "Role" (obj3.name ++ "-epp")])
          ++ [.upsert "RoleBinding" (obj3.name ++ "-epp")])
          ++ [.upsert "ConfigMap" (obj3.name ++ "-epp-config")])
          ++ [.upsert "Deployment" (obj3.name ++ "-epp")])
          ++ [.upsert "Service" (obj3.name ++ "-epp")]) := by
  unfold stepEPP
  simp only [h1, h2, h3, h4, h5, h6]
  rfl

/-- The EPP readiness gate on a non-ready deployment. -/
theorem checkEPPReady_notReady (env : Env) (now : Int) (obj3 : ISObj) (tr : List Event)
    (d : DeployObs) (hobs : env.eppDeployObs = .ok d)
    (hne : d.readyReplicas ≠ d.specReplicas) :
    (checkEPPReady env now obj3 tr).requeueAfter = some 30 ∧
    (checkEPPReady env now obj3 tr).err = none ∧
    (checkEPPReady env now obj3 tr).trace = tr ++ [.statusUpdate] ∧
    ∃ o, (checkEPPReady env now obj3 tr).obj = some o ∧
      o.status.eppReplicas = 0 ∧
      ∃ ltt, findCondition o.status.conditions "EPPReady" =
        some ⟨"EPPReady", .cfalse, obj3.generation, ltt, "NotReady",
          "EPP pods are not ready yet"⟩ := by
  have hbeq : (d.readyReplicas == d.specReplicas) = false := by simpa using hne
  have hstep : ∃ o,
      checkEPPReady env now obj3 tr = ⟨some 30, none, some o, tr ++ [.statusUpdate]⟩ ∧
      o.status.eppReplicas = 0 ∧
      o.status.conditions = (updateCondition obj3 "EPPReady" .cfalse "NotReady"
        "EPP pods are not ready yet" now).status.conditions := by
    unfold checkEPPReady isDeploymentReady
    simp only [hobs, hbeq]
    exact ⟨_, rfl, rfl, rfl⟩
  obtain ⟨o, ho, hrep, hconds⟩ := hstep
  rw [ho]
  refine ⟨rfl, rfl, rfl, o, rfl, hrep, ?_⟩
  rw [hconds]
  exact findCondition_updateCondition obj3 "EPPReady" .cfalse "NotReady"
    "EPP pods are not ready yet" now

/-- The EPP readiness gate on a ready deployment. -/
theorem checkEPPReady_ready (env : Env) (now : Int) (obj3 : ISObj) (tr : List Event)
    (d : DeployObs) (hobs : env.eppDeployObs = .ok d)
    (heq : d.readyReplicas = d.specReplicas) :
    ∃ obj4 : ISObj,
      checkEPPReady env now obj3 tr = stepPool env now obj4 tr ∧
      obj4.spec = obj3.spec ∧ obj4.generation = obj3.generation ∧
      obj4.name = obj3.name ∧ obj4.nspace = obj3.nspace := by
  have hbeq : (d.readyReplicas == d.specReplicas) = true := by simpa using heq
  unfold checkEPPReady isDeploymentReady
  simp only [hobs, hbeq]
  exact ⟨_, rfl, rfl, rfl, rfl, rfl⟩

/-- The `stepPool` on success. -/
theorem stepPool_ok (env : Env) (now : Int) (obj4 : ISObj) (tr : List Event)
    (hp : env.upsertRes .infPool = none) :
    ∃ obj5 : ISObj,
      stepPool env now obj4 tr =
        stepGatewayRoute env now obj5
          (tr ++ [.upsert "InferencePool" (obj4.name ++ "-pool")]) ∧
      obj5.spec = obj4.spec ∧ obj5.generation = obj4.generation ∧
      obj5.name = obj4.name ∧ obj5.nspace = obj4.nspace ∧
      obj5.status.inferencePoolReady = true := by
  unfold stepPool
  simp only [hp]
  exact ⟨_, rfl, rfl, rfl, rfl, rfl, rfl⟩

/-- The `stepGatewayRoute` on success, through the final `Ready` status. -/
theorem stepGatewayRoute_ok (env : Env) (now : Int) (obj5 : ISObj) (tr : List Event)
    (hg : env.upsertRes .gateway = none) (hr : env.upsertRes .httpRoute = none)
    (hfs : env.finalStatusErr = none) :
    ∃ o : ISObj,
      stepGatewayRoute env now obj5 tr =
        ⟨some 300, none, some o,
         ((tr ++ [.upsert "Gateway" (obj5.name ++ "-gateway")])
           ++ [.upsert "HTTPRoute" (obj5.name ++ "-route")]) ++ [.statusUpdate]⟩ ∧
      o.status.phase = "Ready" ∧ o.status.gatewayReady = true := by
  unfold stepGatewayRoute finishReady
  simp only [hg, hr, hfs]
  exact ⟨_, rfl, rfl, rfl⟩

theorem upsertsOf_singleton_upsert (k n : String) :
    upsertsOf [Event.upsert k n] = [(k, n)] := rfl

theorem upsertsOf_singleton_status : upsertsOf [Event.statusUpdate] = [] := rfl

/-- C4: the workload readiness probe is exactly the point-in-time
comparison of observed ready replicas with desired replicas, and a
non-ready workload (model server or EPP) stops the pass at that step —
no later upsert is issued — with a false readiness condition, a zeroed
replica count, a 30-second requeue and no error. -/
theorem reconcile_workload_gate (env : Env) (now : Int) (obj : ISObj) (d : DeployObs)
    (hget : env.rootGet = .ok obj) (hdel : obj.deletionTimestampSet = false)
    (hfin : finalizerName ∈ obj.finalizers ∨ env.rootUpdateErr = none)
    (hph : obj.status.phase ≠ "" ∨ env.initStatusErr = none)
    (hok : validatePrerequisites env.prereq obj.spec = none)
    (hms : env.upsertRes .msDeployment = none)
    (hsvc : env.upsertRes .msService = none)
    (hobs : env.msDeployObs = .ok d) :
    (∀ d2 : DeployObs, isDeploymentReady (.ok d2) = .ok true ↔
      d2.readyReplicas = d2.specReplicas) ∧
    (d.readyReplicas ≠ d.specReplicas →
      (reconcile env now).requeueAfter = some 30 ∧
      (reconcile env now).err = none ∧
      upsertsOf (reconcile env now).trace =
        [("Deployment", obj.name ++ "-vllm"), ("Service", obj.name ++ "-vllm")] ∧
      ∃ o, (reconcile env now).obj = some o ∧
        o.status.modelServerReplicas = 0 ∧
        ∃ ltt, findCondition o.status.conditions "ModelServerReady" =
          some ⟨"ModelServerReady", .cfalse, obj.generation, ltt, "NotReady",
            "Model server pods are not ready yet"⟩) ∧
    (∀ d2 : DeployObs, d.readyReplicas = d.specReplicas →
      env.upsertRes .eppSA = none → env.upsertRes .eppRole = none →
      env.upsertRes .eppRoleBinding = none → env.upsertRes .eppConfigMap = none →
      env.upsertRes .eppDeployment = none → env.upsertRes .eppService = none →
      env.eppDeployObs = .ok d2 → d2.readyReplicas ≠ d2.specReplicas →
      (reconcile env now).requeueAfter = some 30 ∧
      (reconcile env now).err = none ∧
      upsertsOf (reconcile env now).trace =
        [("Deployment", obj.name ++ "-vllm"), ("Service", obj.name ++ "-vllm"),
         ("ServiceAccount", obj.name ++ "-epp"), ("Role", obj.name ++ "-epp"),
         ("RoleBinding", obj.name ++ "-epp"), ("ConfigMap", obj.name ++ "-epp-config"),
         ("Deployment", obj.name ++ "-epp"), ("Service", obj.name ++ "-epp")] ∧
      ∃ o, (reconcile env now).obj = some o ∧
        o.status.eppReplicas = 0 ∧
        ∃ ltt, findCondition o.status.conditions "EPPReady" =
          some ⟨"EPPReady", .cfalse, obj.generation, ltt, "NotReady",
            "EPP pods are not ready yet"⟩) := by
  obtain ⟨obj1, tr, hrec, hspec, hgen, hname, hns, -, hnoup⟩ :=
    reconcile_reaches_validate env now obj hget hdel hfin hph
  have hok1 : validatePrerequisites env.prereq obj1.spec = none := by
    rw [hspec]
    exact hok
  obtain ⟨obj2, hsv, hspec2, hgen2, hname2, -⟩ := stepValidate_ok env now obj1 tr hok1
  have hrec2 : reconcile env now =
      checkMSReady env now obj2
        (((tr ++ [Event.statusUpdate])
          ++ [Event.upsert "Deployment" (obj2.name ++ "-vllm")])
          ++ [Event.upsert "Service" (obj2.name ++ "-vllm")]) := by
    rw [hrec, hsv, stepModelServer_ok env now obj2 (tr ++ [Event.statusUpdate]) hms hsvc]
  have hnoup2 : ∀ k n, Event.upsert k n ∉ tr ++ [Event.statusUpdate] := by
    intro k n hm
    rcases List.mem_append.mp hm with hm | hm
    · exact hnoup k n hm
    · simp at hm
  refine ⟨?_, ?_, ?_⟩
  · intro d2
    constructor
    · intro h
      have h' : Except.ok (d2.readyReplicas == d2.specReplicas) = Except.ok true := h
      have hb : (d2.readyReplicas == d2.specReplicas) = true := by injection h'
      exact eq_of_beq hb
    · intro h
      show Except.ok (d2.readyReplicas == d2.specReplicas) = Except.ok true
      rw [h]
      simp
  · intro hne
    obtain ⟨h30, herr, htrace, o, ho, hrep, ltt, hcond⟩ :=
      checkMSReady_notReady env now obj2 _ d hobs hne
    rw [hrec2]
    refine ⟨h30, herr, ?_, o, ho, hrep, ltt, ?_⟩
    · rw [htrace]
      simp only [upsertsOf_append, upsertsOf_eq_nil hnoup, upsertsOf_singleton_upsert,
        upsertsOf_singleton_status, hname2, hname, List.nil_append, List.append_nil]
      rfl
    · rw [hgen2, hgen] at hcond
      exact hcond
  · intro d2 hready h1 h2 h3 h4 h5 h6 hobs2 hne2
    obtain ⟨obj3, hready', hspec3, hgen3, hname3, -⟩ :=
      checkMSReady_ready env now obj2 _ d hobs hready
    have hrec3 : reconcile env now =
        checkEPPReady env now obj3
          (((((((((tr ++ [Event.statusUpdate])
            ++ [Event.upsert "Deployment" (obj2.name ++ "-vllm")])
            ++ [Event.upsert "Service" (obj2.name ++ "-vllm")])
            ++ [Event.upsert "ServiceAccount" (obj3.name ++ "-epp")])
            ++ [Event.upsert "Role" (obj3.name ++ "-epp")])
            ++ [Event.upsert "RoleBinding" (obj3.name ++ "-epp")])
            ++ [Event.upsert "ConfigMap" (obj3.name ++ "-epp-config")])
            ++ [Event.upsert "Deployment" (obj3.name ++ "-epp")])
            ++ [Event.upsert "Service" (obj3.name ++ "-epp")]) := by
      rw [hrec2, hready', stepEPP_ok env now obj3 _ h1 h2 h3 h4 h5 h6]
    obtain ⟨h30, herr, htrace, o, ho, hrep, ltt, hcond⟩ :=
      checkEPPReady_notReady env now obj3 _ d2 hobs2 hne2
    rw [hrec3]
    refine ⟨h30, herr, ?_, o, ho, hrep, ltt, ?_⟩
    · rw [htrace]
      simp only [upsertsOf_append, upsertsOf_eq_nil hnoup, upsertsOf_singleton_upsert,
        upsertsOf_singleton_status, hname3, hname2, hname, List.nil_append, List.append_nil]
      rfl
    · rw [hgen3, hgen2, hgen] at hcond
      exact hcond

/-- C3 (amended): one full successful pass issues exactly these eleven
child upserts, in program order; every child name is the root name
followed by a fixed per-child suffix, identical on every invocation, but
only six distinct suffixes occur — children of different kinds share a
suffix (`-vllm` twice, `-epp` five times) rather than having one
distinct suffix per kind. -/
theorem reconcile_full_pass (env : Env) (now : Int) (obj : ISObj) (d d2 : DeployObs)
    (hget : env.rootGet = .ok obj) (hdel : obj.deletionTimestampSet = false)
    (hfin : finalizerName ∈ obj.finalizers ∨ env.rootUpdateErr = none)
    (hph : obj.status.phase ≠ "" ∨ env.initStatusErr = none)
    (hok : validatePrerequisites env.prereq obj.spec = none)
    (hms : env.upsertRes .msDeployment = none)
    (hsvc : env.upsertRes .msService = none)
    (hobs : env.msDeployObs = .ok d)
    (hready : d.readyReplicas = d.specReplicas)
    (h1 : env.upsertRes .eppSA = none) (h2 : env.upsertRes .eppRole = none)
    (h3 : env.upsertRes .eppRoleBinding = none) (h4 : env.upsertRes .eppConfigMap = none)
    (h5 : env.upsertRes .eppDeployment = none) (h6 : env.upsertRes .eppService = none)
    (hobs2 : env.eppDeployObs = .ok d2)
    (hready2 : d2.readyReplicas = d2.specReplicas)
    (hpool : env.upsertRes .infPool = none) (hgw : env.upsertRes .gateway = none)
    (hrt : env.upsertRes .httpRoute = none) (hfs : env.finalStatusErr = none) :
    upsertsOf (reconcile env now).trace =
      [("Deployment", obj.name ++ "-vllm"), ("Service", obj.name ++ "-vllm"),
       ("ServiceAccount", obj.name ++ "-epp"), ("Role", obj.name ++ "-epp"),
       ("RoleBinding", obj.name ++ "-epp"), ("ConfigMap", obj.name ++ "-epp-config"),
       ("Deployment", obj.name ++ "-epp"), ("Service", obj.name ++ "-epp"),
       ("InferencePool", obj.name ++ "-pool"), ("Gateway", obj.name ++ "-gateway"),
       ("HTTPRoute", obj.name ++ "-route")] ∧
    (upsertsOf (reconcile env now).trace).length = 11 ∧
    (reconcile env now).requeueAfter = some 300 ∧
    (reconcile env now).err = none ∧
    ∃ o, (reconcile env now).obj = some o ∧ o.status.phase = "Ready" := by
  obtain ⟨obj1, tr, hrec, hspec, hgen, hname, hns, -, hnoup⟩ :=
    reconcile_reaches_validate env now obj hget hdel hfin hph
  have hok1 : validatePrerequisites env.prereq obj1.spec = none := by
    rw [hspec]
    exact hok
  obtain ⟨obj2, hsv, hspec2, hgen2, hname2, -⟩ := stepValidate_ok env now obj1 tr hok1
  obtain ⟨obj3, hready', hspec3, hgen3, hname3, -⟩ :=
    checkMSReady_ready env now obj2
      (((tr ++ [Event.statusUpdate])
        ++ [Event.upsert "Deployment" (obj2.name ++ "-vllm")])
        ++ [Event.upsert "Service" (obj2.name ++ "-vllm")]) d hobs hready
  obtain ⟨obj4, hready2', hspec4, hgen4, hname4, -⟩ :=
    checkEPPReady_ready env now obj3
      (((((((((tr ++ [Event.statusUpdate])
        ++ [Event.upsert "Deployment" (obj2.name ++ "-vllm")])
        ++ [Event.upsert "Service" (obj2.name ++ "-vllm")])
        ++ [Event.upsert "ServiceAccount" (obj3.name ++ "-epp")])
        ++ [Event.upsert "Role" (obj3.name ++ "-epp")])
        ++ [Event.upsert "RoleBinding" (obj3.name ++ "-epp")])
        ++ [Event.upsert "ConfigMap" (obj3.name ++ "-epp-config")])
        ++ [Event.upsert "Deployment" (obj3.name ++ "-epp")])
        ++ [Event.upsert "Service" (obj3.name ++ "-epp")]) d2 hobs2 hready2
  obtain ⟨obj5, hpool', hspec5, hgen5, hname5, hns5, -⟩ :=
    stepPool_ok env now obj4
      (((((((((tr ++ [Event.statusUpdate])
        ++ [Event.upsert "Deployment" (obj2.name ++ "-vllm")])
        ++ [Event.upsert "Service" (obj2.name ++ "-vllm")])
        ++ [Event.upsert "ServiceAccount" (obj3.name ++ "-epp")])
        ++ [Event.upsert "Role" (obj3.name ++ "-epp")])
        ++ [Event.upsert "RoleBinding" (obj3.name ++ "-epp")])
        ++ [Event.upsert "ConfigMap" (obj3.name ++ "-epp-config")])
        ++ [Event.upsert "Deployment" (obj3.name ++ "-epp")])
        ++ [Event.upsert "Service" (obj3.name ++ "-epp")]) hpool
  obtain ⟨o, hfinal, hphase, -⟩ :=
    stepGatewayRoute_ok env now obj5
      ((((((((((tr ++ [Event.statusUpdate])
        ++ [Event.upsert "Deployment" (obj2.name ++ "-vllm")])
        ++ [Event.upsert "Service" (obj2.name ++ "-vllm")])
        ++ [Event.upsert "ServiceAccount" (obj3.name ++ "-epp")])
        ++ [Event.upsert "Role" (obj3.name ++ "-epp")])
        ++ [Event.upsert "RoleBinding" (obj3.name ++ "-epp")])
        ++ [Event.upsert "ConfigMap" (obj3.name ++ "-epp-config")])
        ++ [Event.upsert "Deployment" (obj3.name ++ "-epp")])
        ++ [Event.upsert "Service" (obj3.name ++ "-epp")])
        ++ [Event.upsert "InferencePool" (obj4.name ++ "-pool")]) hgw hrt hfs
  have hall : reconcile env now =
      ⟨some 300, none, some o,
       (((((((((((tr ++ [Event.statusUpdate])
         ++ [Event.upsert "Deployment" (obj2.name ++ "-vllm")])
         ++ [Event.upsert "Service" (obj2.name ++ "-vllm")])
         ++ [Event.upsert "ServiceAccount" (obj3.name ++ "-epp")])
         ++ [Event.upsert "Role" (obj3.name ++ "-epp")])
         ++ [Event.upsert "RoleBinding" (obj3.name ++ "-epp")])
         ++ [Event.upsert "ConfigMap" (obj3.name ++ "-epp-config")])
         ++ [Event.upsert "Deployment" (obj3.name ++ "-epp")])
         ++ [Event.upsert "Service" (obj3.name ++ "-epp")])
         ++ [Event.upsert "InferencePool" (obj4.name ++ "-pool")])
         ++ [Event.upsert "Gateway" (obj5.name ++ "-gateway")])
         ++ [Event.upsert "HTTPRoute" (obj5.name ++ "-route")] ++ [Event.statusUpdate]⟩ := by
    rw [hrec, hsv, stepModelServer_ok env now obj2 (tr ++ [Event.statusUpdate]) hms hsvc,
      hready', stepEPP_ok env now obj3 _ h1 h2 h3 h4 h5 h6, hready2', hpool', hfinal]
  have htr : upsertsOf (reconcile env now).trace =
      [("Deployment", obj.name ++ "-vllm"), ("Service", obj.name ++ "-vllm"),
       ("ServiceAccount", obj.name ++ "-epp"), ("Role", obj.name ++ "-epp"),
       ("RoleBinding", obj.name ++ "-epp"), ("ConfigMap", obj.name ++ "-epp-config"),
       ("Deployment", obj.name ++ "-epp"), ("Service", obj.name ++ "-epp"),
       ("InferencePool", obj.name ++ "-pool"), ("Gateway", obj.name ++ "-gateway"),
       ("HTTPRoute", obj.name ++ "-route")] := by
    rw [hall]
    show upsertsOf _ = _
    simp only [upsertsOf_append, upsertsOf_eq_nil hnoup, upsertsOf_singleton_upsert,
      upsertsOf_singleton_status, List.nil_append, List.append_nil,
      hname5, hname4, hname3, hname2, hname]
    rfl
  refine ⟨htr, ?_, ?_, ?_, o, ?_, hphase⟩
  · rw [htr]
    rfl
  · rw [hall]
  · rw [hall]
  · rw [hall]

/-- C5: a deletion-marked object is routed to the finalizer handler:
with the marker absent the invocation does nothing and succeeds; with it
present (and the persisting update succeeding) the marker is removed and
the object persisted in that single invocation, with no child upsert and
no per-child delete; and no deleting invocation ever re-adds the
marker. -/
theorem reconcile_deletion (env : Env) (now : Int) (obj : ISObj)
    (hget : env.rootGet = .ok obj) (hdel : obj.deletionTimestampSet = true) :
    (Event.addFinalizer ∉ (reconcile env now).trace) ∧
    (∀ k n, Event.upsert k n ∉ (reconcile env now).trace) ∧
    (finalizerName ∉ obj.finalizers → reconcile env now = ⟨none, none, some obj, []⟩) ∧
    (finalizerName ∈ obj.finalizers → env.rootUpdateErr = none →
      reconcile env now =
        ⟨none, none,
         some { obj with finalizers := obj.finalizers.filter (fun f => f != finalizerName) },
         [.removeFinalizer, .updateRoot]⟩ ∧
      finalizerName ∉ obj.finalizers.filter (fun f => f != finalizerName)) := by
  have hrec : reconcile env now = handleDeletion env obj := by
    unfold reconcile
    rw [hget]
    simp [hdel]
  refine ⟨?_, ?_, ?_, ?_⟩
  · rw [hrec]
    unfold handleDeletion
    by_cases hf : finalizerName ∈ obj.finalizers
    · rw [if_pos hf]
      cases env.rootUpdateErr <;> simp
    · rw [if_neg hf]
      simp
  · intro k n
    rw [hrec]
    unfold handleDeletion
    by_cases hf : finalizerName ∈ obj.finalizers
    · rw [if_pos hf]
      cases env.rootUpdateErr <;> simp
    · rw [if_neg hf]
      simp
  · intro hf
    rw [hrec]
    unfold handleDeletion
    rw [if_neg hf]
  · intro hf hru
    rw [hrec]
    unfold handleDeletion
    rw [if_pos hf, hru]
    refine ⟨rfl, ?_⟩
    intro hm
    have hp := List.of_mem_filter hm
    simp at hp

/-- C8: a not-found fetch of the root ends the invocation immediately
with no error, no requeue, and no effects at all. -/
theorem reconcile_root_not_found (env : Env) (now : Int)
    (h : env.rootGet = .error .notFound) :
    reconcile env now = ⟨none, none, none, []⟩ := by
  unfold reconcile
  rw [h]

/-! ### Concrete environments for witnesses and counterexamples -/

/-- A prerequisite environment with everything installed. -/
def prereqOK : PrereqEnv :=
  { listGatewayErr := none
    listHTTPRouteErr := none
    listPoolErr := none
    listGatewayClassErr := none
    gatewayClassNames := ["kgateway"] }

/-- A prerequisite environment whose Gateway API CRD is absent. -/
def prereqMissingGw : PrereqEnv :=
  { listGatewayErr := some .noMatch
    listHTTPRouteErr := none
    listPoolErr := none
    listGatewayClassErr := none
    gatewayClassNames := ["kgateway"] }

/-- A fully healthy environment around `sampleObj`. -/
def envOK : Env :=
  { rootGet := .ok sampleObj
    rootUpdateErr := none
    initStatusErr := none
    finalStatusErr := none
    prereq := prereqOK
    upsertRes := fun _ => none
    msDeployObs := .ok ⟨1, 1⟩
    eppDeployObs := .ok ⟨1, 1⟩ }

/-- The `envOK` with the Gateway API capability missing. -/
def envPrereqMissing : Env := { envOK with prereq := prereqMissingGw }

/-- The `envOK` with the root object gone. -/
def envMissingRoot : Env := { envOK with rootGet := .error .notFound }

/-- The `envOK` with a model-server deployment that has 0 of 1 ready
replicas. -/
def envMSNotReady : Env := { envOK with msDeployObs := .ok ⟨0, 1⟩ }

/-- The `sampleObj` marked for deletion. -/
def objDeleting : ISObj := { sampleObj with deletionTimestampSet := true }

/-- The `envOK` fetching the deletion-marked object. -/
def envDeleting : Env := { envOK with rootGet := .ok objDeleting }

/-- Witness for C1: with the Gateway API CRD absent, the invocation ends
in a 60-second requeue with no error. -/
theorem reconcile_prereq_missing_witness :
    (reconcile envPrereqMissing 4).requeueAfter = some 60 ∧
    (reconcile envPrereqMissing 4).err = none :=
  have h := reconcile_prereq_missing envPrereqMissing 4 sampleObj
    (missingPrereqsMsg [gatewayAPIMissing]) rfl rfl (Or.inr rfl) (Or.inr rfl) (by decide)
  ⟨h.2.1, h.2.2.1⟩

/-- Witness for C4: with 0 of 1 model-server replicas ready, the pass
stops after the two model-server upserts and requeues after 30s. -/
theorem reconcile_workload_gate_witness :
    (reconcile envMSNotReady 4).requeueAfter = some 30 ∧
    (reconcile envMSNotReady 4).err = none ∧
    upsertsOf (reconcile envMSNotReady 4).trace =
      [("Deployment", "demo-vllm"), ("Service", "demo-vllm")] :=
  have h := (reconcile_workload_gate envMSNotReady 4 sampleObj ⟨0, 1⟩
    rfl rfl (Or.inr rfl) (Or.inr rfl) (by decide) rfl rfl rfl).2.1 (by decide)
  ⟨h.1, h.2.1, h.2.2.1⟩

/-- Witness for the amended C3 at `envOK`. -/
theorem reconcile_full_pass_witness :
    upsertsOf (reconcile envOK 4).trace =
      [("Deployment", "demo-vllm"), ("Service", "demo-vllm"),
       ("ServiceAccount", "demo-epp"), ("Role", "demo-epp"),
       ("RoleBinding", "demo-epp"), ("ConfigMap", "demo-epp-config"),
       ("Deployment", "demo-epp"), ("Service", "demo-epp"),
       ("InferencePool", "demo-pool"), ("Gateway", "demo-gateway"),
       ("HTTPRoute", "demo-route")] ∧
    (upsertsOf (reconcile envOK 4).trace).length = 11 :=
  have h := reconcile_full_pass envOK 4 sampleObj ⟨1, 1⟩ ⟨1, 1⟩ rfl rfl (Or.inr rfl)
    (Or.inr rfl) (by decide) rfl rfl rfl rfl rfl rfl rfl rfl rfl rfl rfl rfl rfl rfl rfl rfl
  ⟨h.1, h.2.1⟩

/-- C3 counterexample: the fully successful pass issues eleven child
upserts, not nine. -/
theorem reconcile_full_pass_count :
    (upsertsOf (reconcile envOK 4).trace).length = 11 ∧
    (upsertsOf (reconcile envOK 4).trace).length ≠ 9 := by
  constructor
  · decide
  · decide

/-- Witness for C5: deleting the sample object removes the finalizer and
persists in one invocation with no other effect. -/
theorem reconcile_deletion_witness :
    reconcile envDeleting 4 =
      ⟨none, none, some { objDeleting with finalizers := [] },
       [.removeFinalizer, .updateRoot]⟩ :=
  have h := (reconcile_deletion envDeleting 4 objDeleting rfl rfl).2.2.2 (by decide) rfl
  h.1

/-- Witness for C8: a missing root ends the invocation silently. -/
theorem reconcile_root_not_found_witness :
    reconcile envMissingRoot 4 = ⟨none, none, none, []⟩ :=
  reconcile_root_not_found envMissingRoot 4 rfl
